import Mathlib

/-!
A verification development for the djangotoolbox nonrel database layer.

We shallowly embed the value-conversion framework of
`djangotoolbox/db/base.py` (`NonrelDatabaseOperations.value_for_db`,
`value_from_db` and their collection / embedded-model branches) and the
query-compilation layer of `djangotoolbox/db/basecompiler.py`
(`NonrelQuery.add_filters`, `_decode_child`, `_normalize_lookup_value`,
`_get_children`, `_matches_filters`, `NonrelCompiler._make_result`,
`NonrelCompiler.get_count`, `NonrelInsertCompiler.execute_sql`).

Python values are modelled by the inductive type `Val`; field descriptors
and model classes by the mutually inductive `Field` / `Model`.  Stateful
Python code (the `_negated` instance attribute) becomes explicit state
passing; code that can raise returns `Except String`.  Back-end supplied
hooks (driver conversions, `import_module`) become function parameters.
-/

namespace Djangotoolbox

mutual

/-- A Django field as seen by the conversion layer: `kind` is
`field.get_internal_type()`, `dbType` the memoized `nonrel_db_type(field)`
storage-type tag, `column` / `attname` / `name` the usual field
attributes, `null` the nullability flag, `item` is `field.item_field` for
collection fields and `embedded` is `field.embedded_model` for
embedded-model fields.

The `LegacyEmbeddedModelField` compatibility branches of the conversion
functions are not modelled: that field class lives in `fields.py`, which
is outside the excerpted sources, and every field representable here is
an ordinary (non-legacy) field, on which those branches are dead code. -/
inductive Field : Type where
  | mk (kind : String) (dbType : String) (column : String) (attname : String)
       (name : String) (null : Bool)
       (item : Option Field) (embedded : Option Model) : Field

/-- A model class: its `__module__`, `__name__` and `_meta.fields`. -/
inductive Model : Type where
  | mk (module : String) (name : String) (fields : List Field) : Model

end

def Field.kind : Field → String
  | .mk k _ _ _ _ _ _ _ => k

def Field.dbType : Field → String
  | .mk _ d _ _ _ _ _ _ => d

def Field.column : Field → String
  | .mk _ _ c _ _ _ _ _ => c

def Field.attname : Field → String
  | .mk _ _ _ a _ _ _ _ => a

def Field.name : Field → String
  | .mk _ _ _ _ n _ _ _ => n

def Field.null : Field → Bool
  | .mk _ _ _ _ _ nl _ _ => nl

def Field.item : Field → Option Field
  | .mk _ _ _ _ _ _ i _ => i

def Field.embedded : Field → Option Model
  | .mk _ _ _ _ _ _ _ e => e

def Model.module : Model → String
  | .mk m _ _ => m

def Model.name : Model → String
  | .mk _ n _ => n

def Model.fields : Model → List Field
  | .mk _ _ fs => fs

mutual

def Field.deq : (a b : Field) → Decidable (a = b)
  | .mk k1 d1 c1 a1 n1 u1 i1 e1, .mk k2 d2 c2 a2 n2 u2 i2 e2 =>
      match decEq k1 k2, decEq d1 d2, decEq c1 c2, decEq a1 a2, decEq n1 n2,
            decEq u1 u2, Field.deqOpt i1 i2, Model.deqOpt e1 e2 with
      | isTrue h1, isTrue h2, isTrue h3, isTrue h4, isTrue h5, isTrue h6,
          isTrue h7, isTrue h8 =>
          isTrue (by rw [h1, h2, h3, h4, h5, h6, h7, h8])
      | isFalse h, _, _, _, _, _, _, _ => isFalse (by intro hc; cases hc; exact h rfl)
      | _, isFalse h, _, _, _, _, _, _ => isFalse (by intro hc; cases hc; exact h rfl)
      | _, _, isFalse h, _, _, _, _, _ => isFalse (by intro hc; cases hc; exact h rfl)
      | _, _, _, isFalse h, _, _, _, _ => isFalse (by intro hc; cases hc; exact h rfl)
      | _, _, _, _, isFalse h, _, _, _ => isFalse (by intro hc; cases hc; exact h rfl)
      | _, _, _, _, _, isFalse h, _, _ => isFalse (by intro hc; cases hc; exact h rfl)
      | _, _, _, _, _, _, isFalse h, _ => isFalse (by intro hc; cases hc; exact h rfl)
      | _, _, _, _, _, _, _, isFalse h => isFalse (by intro hc; cases hc; exact h rfl)
termination_by structural a => a

def Field.deqOpt : (a b : Option Field) → Decidable (a = b)
  | Option.none, Option.none => isTrue rfl
  | Option.none, Option.some _ => isFalse (by intro h; cases h)
  | Option.some _, Option.none => isFalse (by intro h; cases h)
  | Option.some x, Option.some y =>
      match Field.deq x y with
      | isTrue h => isTrue (by rw [h])
      | isFalse h => isFalse (by intro hc; cases hc; exact h rfl)
termination_by structural a => a

def Field.deqList : (a b : List Field) → Decidable (a = b)
  | [], [] => isTrue rfl
  | [], _ :: _ => isFalse (by intro h; cases h)
  | _ :: _, [] => isFalse (by intro h; cases h)
  | x :: xs, y :: ys =>
      match Field.deq x y, Field.deqList xs ys with
      | isTrue h1, isTrue h2 => isTrue (by rw [h1, h2])
      | isFalse h1, _ => isFalse (by intro hc; cases hc; exact h1 rfl)
      | _, isFalse h2 => isFalse (by intro hc; cases hc; exact h2 rfl)
termination_by structural a => a

def Model.deq : (a b : Model) → Decidable (a = b)
  | .mk m1 n1 f1, .mk m2 n2 f2 =>
      match decEq m1 m2, decEq n1 n2, Field.deqList f1 f2 with
      | isTrue h1, isTrue h2, isTrue h3 => isTrue (by rw [h1, h2, h3])
      | isFalse h, _, _ => isFalse (by intro hc; cases hc; exact h rfl)
      | _, isFalse h, _ => isFalse (by intro hc; cases hc; exact h rfl)
      | _, _, isFalse h => isFalse (by intro hc; cases hc; exact h rfl)
termination_by structural a => a

def Model.deqOpt : (a b : Option Model) → Decidable (a = b)
  | Option.none, Option.none => isTrue rfl
  | Option.none, Option.some _ => isFalse (by intro h; cases h)
  | Option.some _, Option.none => isFalse (by intro h; cases h)
  | Option.some x, Option.some y =>
      match Model.deq x y with
      | isTrue h => isTrue (by rw [h])
      | isFalse h => isFalse (by intro hc; cases hc; exact h rfl)
termination_by structural a => a

end

instance : DecidableEq Field := Field.deq

instance : DecidableEq Model := Model.deq

/-- Python values flowing through the conversion layer.

`lazy` models the string-like wrappers that `value_for_db` forces to a
plain string: lazy translation strings (`Promise`) and safe / escape
string markers alike.  `date` / `datetime` / `time` carry an abstract
ordinal, sufficient for ordered comparison.  A Python `set` is modelled
as its list of elements in iteration order and a `dict` as its
association list in insertion order (a well-formed dict has no duplicate
keys).  `triple` is the
`(embedded_instance, field => value mapping, save_model_info)` tuple an
`EmbeddedModelField` passes to `value_for_db_model` (only the module and
class name of the embedded instance are ever read); `inst` is a
reconstructed instance `model(__entity_exists=True, **data)` with `data`
keyed by attribute name. -/
inductive Val : Type where
  | none : Val
  | bool (b : Bool) : Val
  | int (n : Int) : Val
  | str (s : String) : Val
  | lazy (s : String) : Val
  | date (d : Nat) : Val
  | datetime (d : Nat) : Val
  | time (t : Nat) : Val
  | list (xs : List Val) : Val
  | set (xs : List Val) : Val
  | dict (kvs : List (Val × Val)) : Val
  | triple (module cls : String) (fieldValues : List (Field × Val))
      (saveModelInfo : Bool) : Val
  | inst (m : Model) (data : List (String × Val)) : Val

mutual

def Val.deq : (a b : Val) → Decidable (a = b)
  | .none, .none => isTrue rfl
  | .bool x0, .bool y0 =>
      match decEq x0 y0 with
      | isTrue h0 => isTrue (by rw [h0])
      | isFalse h0 => isFalse (by intro hc; cases hc; exact h0 rfl)
  | .int x0, .int y0 =>
      match decEq x0 y0 with
      | isTrue h0 => isTrue (by rw [h0])
      | isFalse h0 => isFalse (by intro hc; cases hc; exact h0 rfl)
  | .str x0, .str y0 =>
      match decEq x0 y0 with
      | isTrue h0 => isTrue (by rw [h0])
      | isFalse h0 => isFalse (by intro hc; cases hc; exact h0 rfl)
  | .lazy x0, .lazy y0 =>
      match decEq x0 y0 with
      | isTrue h0 => isTrue (by rw [h0])
      | isFalse h0 => isFalse (by intro hc; cases hc; exact h0 rfl)
  | .date x0, .date y0 =>
      match decEq x0 y0 with
      | isTrue h0 => isTrue (by rw [h0])
      | isFalse h0 => isFalse (by intro hc; cases hc; exact h0 rfl)
  | .datetime x0, .datetime y0 =>
      match decEq x0 y0 with
      | isTrue h0 => isTrue (by rw [h0])
      | isFalse h0 => isFalse (by intro hc; cases hc; exact h0 rfl)
  | .time x0, .time y0 =>
      match decEq x0 y0 with
      | isTrue h0 => isTrue (by rw [h0])
      | isFalse h0 => isFalse (by intro hc; cases hc; exact h0 rfl)
  | .list x0, .list y0 =>
      match Val.deqList x0 y0 with
      | isTrue h0 => isTrue (by rw [h0])
      | isFalse h0 => isFalse (by intro hc; cases hc; exact h0 rfl)
  | .set x0, .set y0 =>
      match Val.deqList x0 y0 with
      | isTrue h0 => isTrue (by rw [h0])
      | isFalse h0 => isFalse (by intro hc; cases hc; exact h0 rfl)
  | .dict x0, .dict y0 =>
      match Val.deqPairs x0 y0 with
      | isTrue h0 => isTrue (by rw [h0])
      | isFalse h0 => isFalse (by intro hc; cases hc; exact h0 rfl)
  | .triple x0 x1 x2 x3, .triple y0 y1 y2 y3 =>
      match decEq x0 y0, decEq x1 y1, Val.deqFPairs x2 y2, decEq x3 y3 with
      | isTrue h0, isTrue h1, isTrue h2, isTrue h3 => isTrue (by rw [h0, h1, h2, h3])
      | isFalse h0, _, _, _ => isFalse (by intro hc; cases hc; exact h0 rfl)
      | _, isFalse h1, _, _ => isFalse (by intro hc; cases hc; exact h1 rfl)
      | _, _, isFalse h2, _ => isFalse (by intro hc; cases hc; exact h2 rfl)
      | _, _, _, isFalse h3 => isFalse (by intro hc; cases hc; exact h3 rfl)
  | .inst x0 x1, .inst y0 y1 =>
      match decEq x0 y0, Val.deqSPairs x1 y1 with
      | isTrue h0, isTrue h1 => isTrue (by rw [h0, h1])
      | isFalse h0, _ => isFalse (by intro hc; cases hc; exact h0 rfl)
      | _, isFalse h1 => isFalse (by intro hc; cases hc; exact h1 rfl)
  | .none, .bool _ => isFalse (by intro h; cases h)
  | .none, .int _ => isFalse (by intro h; cases h)
  | .none, .str _ => isFalse (by intro h; cases h)
  | .none, .lazy _ => isFalse (by intro h; cases h)
  | .none, .date _ => isFalse (by intro h; cases h)
  | .none, .datetime _ => isFalse (by intro h; cases h)
  | .none, .time _ => isFalse (by intro h; cases h)
  | .none, .list _ => isFalse (by intro h; cases h)
  | .none, .set _ => isFalse (by intro h; cases h)
  | .none, .dict _ => isFalse (by intro h; cases h)
  | .none, .triple _ _ _ _ => isFalse (by intro h; cases h)
  | .none, .inst _ _ => isFalse (by intro h; cases h)
  | .bool _, .none => isFalse (by intro h; cases h)
  | .bool _, .int _ => isFalse (by intro h; cases h)
  | .bool _, .str _ => isFalse (by intro h; cases h)
  | .bool _, .lazy _ => isFalse (by intro h; cases h)
  | .bool _, .date _ => isFalse (by intro h; cases h)
  | .bool _, .datetime _ => isFalse (by intro h; cases h)
  | .bool _, .time _ => isFalse (by intro h; cases h)
  | .bool _, .list _ => isFalse (by intro h; cases h)
  | .bool _, .set _ => isFalse (by intro h; cases h)
  | .bool _, .dict _ => isFalse (by intro h; cases h)
  | .bool _, .triple _ _ _ _ => isFalse (by intro h; cases h)
  | .bool _, .inst _ _ => isFalse (by intro h; cases h)
  | .int _, .none => isFalse (by intro h; cases h)
  | .int _, .bool _ => isFalse (by intro h; cases h)
  | .int _, .str _ => isFalse (by intro h; cases h)
  | .int _, .lazy _ => isFalse (by intro h; cases h)
  | .int _, .date _ => isFalse (by intro h; cases h)
  | .int _, .datetime _ => isFalse (by intro h; cases h)
  | .int _, .time _ => isFalse (by intro h; cases h)
  | .int _, .list _ => isFalse (by intro h; cases h)
  | .int _, .set _ => isFalse (by intro h; cases h)
  | .int _, .dict _ => isFalse (by intro h; cases h)
  | .int _, .triple _ _ _ _ => isFalse (by intro h; cases h)
  | .int _, .inst _ _ => isFalse (by intro h; cases h)
  | .str _, .none => isFalse (by intro h; cases h)
  | .str _, .bool _ => isFalse (by intro h; cases h)
  | .str _, .int _ => isFalse (by intro h; cases h)
  | .str _, .lazy _ => isFalse (by intro h; cases h)
  | .str _, .date _ => isFalse (by intro h; cases h)
  | .str _, .datetime _ => isFalse (by intro h; cases h)
  | .str _, .time _ => isFalse (by intro h; cases h)
  | .str _, .list _ => isFalse (by intro h; cases h)
  | .str _, .set _ => isFalse (by intro h; cases h)
  | .str _, .dict _ => isFalse (by intro h; cases h)
  | .str _, .triple _ _ _ _ => isFalse (by intro h; cases h)
  | .str _, .inst _ _ => isFalse (by intro h; cases h)
  | .lazy _, .none => isFalse (by intro h; cases h)
  | .lazy _, .bool _ => isFalse (by intro h; cases h)
  | .lazy _, .int _ => isFalse (by intro h; cases h)
  | .lazy _, .str _ => isFalse (by intro h; cases h)
  | .lazy _, .date _ => isFalse (by intro h; cases h)
  | .lazy _, .datetime _ => isFalse (by intro h; cases h)
  | .lazy _, .time _ => isFalse (by intro h; cases h)
  | .lazy _, .list _ => isFalse (by intro h; cases h)
  | .lazy _, .set _ => isFalse (by intro h; cases h)
  | .lazy _, .dict _ => isFalse (by intro h; cases h)
  | .lazy _, .triple _ _ _ _ => isFalse (by intro h; cases h)
  | .lazy _, .inst _ _ => isFalse (by intro h; cases h)
  | .date _, .none => isFalse (by intro h; cases h)
  | .date _, .bool _ => isFalse (by intro h; cases h)
  | .date _, .int _ => isFalse (by intro h; cases h)
  | .date _, .str _ => isFalse (by intro h; cases h)
  | .date _, .lazy _ => isFalse (by intro h; cases h)
  | .date _, .datetime _ => isFalse (by intro h; cases h)
  | .date _, .time _ => isFalse (by intro h; cases h)
  | .date _, .list _ => isFalse (by intro h; cases h)
  | .date _, .set _ => isFalse (by intro h; cases h)
  | .date _, .dict _ => isFalse (by intro h; cases h)
  | .date _, .triple _ _ _ _ => isFalse (by intro h; cases h)
  | .date _, .inst _ _ => isFalse (by intro h; cases h)
  | .datetime _, .none => isFalse (by intro h; cases h)
  | .datetime _, .bool _ => isFalse (by intro h; cases h)
  | .datetime _, .int _ => isFalse (by intro h; cases h)
  | .datetime _, .str _ => isFalse (by intro h; cases h)
  | .datetime _, .lazy _ => isFalse (by intro h; cases h)
  | .datetime _, .date _ => isFalse (by intro h; cases h)
  | .datetime _, .time _ => isFalse (by intro h; cases h)
  | .datetime _, .list _ => isFalse (by intro h; cases h)
  | .datetime _, .set _ => isFalse (by intro h; cases h)
  | .datetime _, .dict _ => isFalse (by intro h; cases h)
  | .datetime _, .triple _ _ _ _ => isFalse (by intro h; cases h)
  | .datetime _, .inst _ _ => isFalse (by intro h; cases h)
  | .time _, .none => isFalse (by intro h; cases h)
  | .time _, .bool _ => isFalse (by intro h; cases h)
  | .time _, .int _ => isFalse (by intro h; cases h)
  | .time _, .str _ => isFalse (by intro h; cases h)
  | .time _, .lazy _ => isFalse (by intro h; cases h)
  | .time _, .date _ => isFalse (by intro h; cases h)
  | .time _, .datetime _ => isFalse (by intro h; cases h)
  | .time _, .list _ => isFalse (by intro h; cases h)
  | .time _, .set _ => isFalse (by intro h; cases h)
  | .time _, .dict _ => isFalse (by intro h; cases h)
  | .time _, .triple _ _ _ _ => isFalse (by intro h; cases h)
  | .time _, .inst _ _ => isFalse (by intro h; cases h)
  | .list _, .none => isFalse (by intro h; cases h)
  | .list _, .bool _ => isFalse (by intro h; cases h)
  | .list _, .int _ => isFalse (by intro h; cases h)
  | .list _, .str _ => isFalse (by intro h; cases h)
  | .list _, .lazy _ => isFalse (by intro h; cases h)
  | .list _, .date _ => isFalse (by intro h; cases h)
  | .list _, .datetime _ => isFalse (by intro h; cases h)
  | .list _, .time _ => isFalse (by intro h; cases h)
  | .list _, .set _ => isFalse (by intro h; cases h)
  | .list _, .dict _ => isFalse (by intro h; cases h)
  | .list _, .triple _ _ _ _ => isFalse (by intro h; cases h)
  | .list _, .inst _ _ => isFalse (by intro h; cases h)
  | .set _, .none => isFalse (by intro h; cases h)
  | .set _, .bool _ => isFalse (by intro h; cases h)
  | .set _, .int _ => isFalse (by intro h; cases h)
  | .set _, .str _ => isFalse (by intro h; cases h)
  | .set _, .lazy _ => isFalse (by intro h; cases h)
  | .set _, .date _ => isFalse (by intro h; cases h)
  | .set _, .datetime _ => isFalse (by intro h; cases h)
  | .set _, .time _ => isFalse (by intro h; cases h)
  | .set _, .list _ => isFalse (by intro h; cases h)
  | .set _, .dict _ => isFalse (by intro h; cases h)
  | .set _, .triple _ _ _ _ => isFalse (by intro h; cases h)
  | .set _, .inst _ _ => isFalse (by intro h; cases h)
  | .dict _, .none => isFalse (by intro h; cases h)
  | .dict _, .bool _ => isFalse (by intro h; cases h)
  | .dict _, .int _ => isFalse (by intro h; cases h)
  | .dict _, .str _ => isFalse (by intro h; cases h)
  | .dict _, .lazy _ => isFalse (by intro h; cases h)
  | .dict _, .date _ => isFalse (by intro h; cases h)
  | .dict _, .datetime _ => isFalse (by intro h; cases h)
  | .dict _, .time _ => isFalse (by intro h; cases h)
  | .dict _, .list _ => isFalse (by intro h; cases h)
  | .dict _, .set _ => isFalse (by intro h; cases h)
  | .dict _, .triple _ _ _ _ => isFalse (by intro h; cases h)
  | .dict _, .inst _ _ => isFalse (by intro h; cases h)
  | .triple _ _ _ _, .none => isFalse (by intro h; cases h)
  | .triple _ _ _ _, .bool _ => isFalse (by intro h; cases h)
  | .triple _ _ _ _, .int _ => isFalse (by intro h; cases h)
  | .triple _ _ _ _, .str _ => isFalse (by intro h; cases h)
  | .triple _ _ _ _, .lazy _ => isFalse (by intro h; cases h)
  | .triple _ _ _ _, .date _ => isFalse (by intro h; cases h)
  | .triple _ _ _ _, .datetime _ => isFalse (by intro h; cases h)
  | .triple _ _ _ _, .time _ => isFalse (by intro h; cases h)
  | .triple _ _ _ _, .list _ => isFalse (by intro h; cases h)
  | .triple _ _ _ _, .set _ => isFalse (by intro h; cases h)
  | .triple _ _ _ _, .dict _ => isFalse (by intro h; cases h)
  | .triple _ _ _ _, .inst _ _ => isFalse (by intro h; cases h)
  | .inst _ _, .none => isFalse (by intro h; cases h)
  | .inst _ _, .bool _ => isFalse (by intro h; cases h)
  | .inst _ _, .int _ => isFalse (by intro h; cases h)
  | .inst _ _, .str _ => isFalse (by intro h; cases h)
  | .inst _ _, .lazy _ => isFalse (by intro h; cases h)
  | .inst _ _, .date _ => isFalse (by intro h; cases h)
  | .inst _ _, .datetime _ => isFalse (by intro h; cases h)
  | .inst _ _, .time _ => isFalse (by intro h; cases h)
  | .inst _ _, .list _ => isFalse (by intro h; cases h)
  | .inst _ _, .set _ => isFalse (by intro h; cases h)
  | .inst _ _, .dict _ => isFalse (by intro h; cases h)
  | .inst _ _, .triple _ _ _ _ => isFalse (by intro h; cases h)
termination_by structural a => a

def Val.deqList : (a b : List Val) → Decidable (a = b)
  | [], [] => isTrue rfl
  | [], _ :: _ => isFalse (by intro h; cases h)
  | _ :: _, [] => isFalse (by intro h; cases h)
  | x :: xs, y :: ys =>
      match Val.deq x y, Val.deqList xs ys with
      | isTrue h1, isTrue h2 => isTrue (by rw [h1, h2])
      | isFalse h1, _ => isFalse (by intro hc; cases hc; exact h1 rfl)
      | _, isFalse h2 => isFalse (by intro hc; cases hc; exact h2 rfl)
termination_by structural a => a

def Val.deqPairs : (a b : List (Val × Val)) → Decidable (a = b)
  | [], [] => isTrue rfl
  | [], _ :: _ => isFalse (by intro h; cases h)
  | _ :: _, [] => isFalse (by intro h; cases h)
  | (k1, v1) :: xs, (k2, v2) :: ys =>
      match Val.deq k1 k2, Val.deq v1 v2, Val.deqPairs xs ys with
      | isTrue h1, isTrue h2, isTrue h3 => isTrue (by rw [h1, h2, h3])
      | isFalse h1, _, _ => isFalse (by intro hc; cases hc; exact h1 rfl)
      | _, isFalse h2, _ => isFalse (by intro hc; cases hc; exact h2 rfl)
      | _, _, isFalse h3 => isFalse (by intro hc; cases hc; exact h3 rfl)
termination_by structural a => a

def Val.deqFPairs : (a b : List (Field × Val)) → Decidable (a = b)
  | [], [] => isTrue rfl
  | [], _ :: _ => isFalse (by intro h; cases h)
  | _ :: _, [] => isFalse (by intro h; cases h)
  | (f1, v1) :: xs, (f2, v2) :: ys =>
      match decEq f1 f2, Val.deq v1 v2, Val.deqFPairs xs ys with
      | isTrue h1, isTrue h2, isTrue h3 => isTrue (by rw [h1, h2, h3])
      | isFalse h1, _, _ => isFalse (by intro hc; cases hc; exact h1 rfl)
      | _, isFalse h2, _ => isFalse (by intro hc; cases hc; exact h2 rfl)
      | _, _, isFalse h3 => isFalse (by intro hc; cases hc; exact h3 rfl)
termination_by structural a => a

def Val.deqSPairs : (a b : List (String × Val)) → Decidable (a = b)
  | [], [] => isTrue rfl
  | [], _ :: _ => isFalse (by intro h; cases h)
  | _ :: _, [] => isFalse (by intro h; cases h)
  | (s1, v1) :: xs, (s2, v2) :: ys =>
      match decEq s1 s2, Val.deq v1 v2, Val.deqSPairs xs ys with
      | isTrue h1, isTrue h2, isTrue h3 => isTrue (by rw [h1, h2, h3])
      | isFalse h1, _, _ => isFalse (by intro hc; cases hc; exact h1 rfl)
      | _, isFalse h2, _ => isFalse (by intro hc; cases hc; exact h2 rfl)
      | _, _, isFalse h3 => isFalse (by intro hc; cases hc; exact h3 rfl)
termination_by structural a => a

end

instance : DecidableEq Val := Val.deq

/-- First-match lookup in a Python dict modelled as an association list
(`d[k]` when it succeeds, also `k in d`). -/
def pyLookup (kvs : List (Val × Val)) (k : Val) : Option Val :=
  match kvs with
  | [] => Option.none
  | (k1, v) :: rest => if k1 = k then some v else pyLookup rest k

/-- Assignment `d[k] = v` on a Python dict: replace the value at the
first occurrence of `k`, keeping its position, or append a fresh entry. -/
def pyDictInsert (kvs : List (Val × Val)) (k v : Val) : List (Val × Val) :=
  match kvs with
  | [] => [(k, v)]
  | (k1, v1) :: rest =>
      if k1 = k then (k, v) :: rest
      else (k1, v1) :: pyDictInsert rest k v

/-- `dict(pairs)`: later duplicate keys overwrite earlier ones, the
position of the first insertion is kept. -/
def pyDictOfPairs (ps : List (Val × Val)) : List (Val × Val) :=
  ps.foldl (fun acc kv => pyDictInsert acc kv.1 kv.2) []

/-- `d.pop(k, None)`: the value removed (if any) and the remaining dict. -/
def pyPop (kvs : List (Val × Val)) (k : Val) :
    Option Val × List (Val × Val) :=
  match kvs with
  | [] => (Option.none, [])
  | (k1, v) :: rest =>
      if k1 = k then (some v, rest)
      else
        let r := pyPop rest k
        (r.1, (k1, v) :: r.2)

/-- `zip(value[::2], value[1::2])`: consecutive-pair grouping of a flat
list with keys and values interleaved (a trailing odd element is
dropped, as `zip` truncates). -/
def zipPairs : List Val → List (Val × Val)
  | [] => []
  | [_] => []
  | k :: v :: rest => (k, v) :: zipPairs rest

/-- The forcing done at the top of `value_for_db`: a lazy translation
string (`Promise`) is evaluated and safe / escape string wrappers are
cast to plain strings; any other value is untouched. -/
def pyForce : Val → Val
  | .lazy s => .str s
  | v => v

/-- Flattening of a pair sequence into a single list with keys and
values interleaved, key first:
`list(item for pair in value for item in pair)`. -/
def interleave : List (Val × Val) → List Val
  | [] => []
  | (k, v) :: rest => k :: v :: interleave rest

/-! Size bounds on the dict helpers, used to justify termination of the
recursive conversion functions. -/

lemma Field.sizeOf_item {f sub : Field} (h : f.item = some sub) :
    sizeOf sub < sizeOf f := by
  cases f with
  | mk k d c a n nl i e =>
      cases i with
      | none => simp [Field.item] at h
      | some s =>
          simp [Field.item] at h
          subst h
          simp
          omega

lemma sizeOf_pyForce (v : Val) : sizeOf (pyForce v) = sizeOf v := by
  cases v <;> simp [pyForce]

lemma sizeOf_zipPairs : (xs : List Val) → sizeOf (zipPairs xs) ≤ sizeOf xs
  | [] => by simp [zipPairs]
  | [x] => by simp [zipPairs]
  | k :: v :: rest => by
      have ih := sizeOf_zipPairs rest
      simp [zipPairs]
      omega

lemma sizeOf_pyDictInsert (d : List (Val × Val)) (k v : Val) :
    sizeOf (pyDictInsert d k v) ≤ sizeOf d + 2 + sizeOf k + sizeOf v := by
  induction d with
  | nil => simp [pyDictInsert]; omega
  | cons p rest ih =>
      obtain ⟨k1, v1⟩ := p
      by_cases hk : k1 = k
      · simp [pyDictInsert, hk]
        omega
      · simp [pyDictInsert, hk]
        omega

lemma sizeOf_foldl_pyDictInsert (ps : List (Val × Val)) :
    ∀ acc, sizeOf (ps.foldl (fun a kv => pyDictInsert a kv.1 kv.2) acc) ≤
      sizeOf acc + sizeOf ps - 1 := by
  induction ps with
  | nil => intro acc; simp
  | cons p rest ih =>
      intro acc
      obtain ⟨k, v⟩ := p
      have h1 := sizeOf_pyDictInsert acc k v
      have h2 := ih (pyDictInsert acc k v)
      simp only [List.foldl_cons]
      simp
      omega

lemma sizeOf_pyDictOfPairs (ps : List (Val × Val)) :
    sizeOf (pyDictOfPairs ps) ≤ sizeOf ps := by
  have h := sizeOf_foldl_pyDictInsert ps []
  simp only [pyDictOfPairs]
  simp at h
  omega

lemma sizeOf_pyPop_le (d : List (Val × Val)) (k : Val) :
    sizeOf (pyPop d k).2 ≤ sizeOf d := by
  induction d with
  | nil => simp [pyPop]
  | cons p rest ih =>
      obtain ⟨k1, v⟩ := p
      by_cases hk : k1 = k
      · simp [pyPop, hk]
      · simp [pyPop, hk]
        omega

lemma sizeOf_pyLookup {d : List (Val × Val)} {k v : Val}
    (h : pyLookup d k = some v) : sizeOf v < sizeOf d := by
  induction d with
  | nil => simp [pyLookup] at h
  | cons p rest ih =>
      obtain ⟨k1, w⟩ := p
      by_cases hk : k1 = k
      · simp [pyLookup, hk] at h
        subst h
        simp
        omega
      · simp [pyLookup, hk] at h
        have := ih h
        simp
        omega

/-! ## The value conversion framework (`NonrelDatabaseOperations`, base.py)

Conversion to database values: `value_for_db`, `value_for_db_collection`
and `value_for_db_model`, with the element-conversion generators spelled
out as list recursions.  Code that raises returns `Except.error`; a
branch of the source that returns a lazy generator object (only taken
for a storage type outside dict / list / set) has no counterpart in
`Val` and is reported as an error, as is iterating a non-collection
(Python would iterate a string by characters and a dict by keys). -/

mutual

/-- `value_for_db`: converts a standard Python value to a type that can
be stored or processed by the database driver.  None is returned as is;
lazy objects and marked strings are forced to plain strings; collection
fields convert their elements and embedded models their field values
recursively; any other value is passed through. -/
def valueForDb (value : Val) (field : Field) (field_kind db_type : String)
    (lookup : Bool) : Except String Val :=
  match value with
  | .none => .ok .none
  | value =>
      if field_kind = "ListField" ∨ field_kind = "SetField" ∨
          field_kind = "DictField" then
        valueForDbCollection (pyForce value) field field_kind db_type lookup
      else if field_kind = "EmbeddedModelField" then
        valueForDbModel (pyForce value) field field_kind db_type lookup
      else
        .ok (pyForce value)
termination_by (sizeOf value, sizeOf field, 2)
decreasing_by
  all_goals simp only [sizeOf_pyForce]
  all_goals apply Prod.Lex.right
  all_goals apply Prod.Lex.right
  all_goals omega

/-- `value_for_db_collection`: recursively converts values from
AbstractIterableFields.  A collection lookup value is a plain value and
is converted as a single collection item; otherwise items or dict
values are converted using the item subfield, returning a dict, a list
with keys and values interleaved, or a set according to the storage
type. -/
def valueForDbCollection (value : Val) (field : Field)
    (field_kind db_type : String) (lookup : Bool) : Except String Val :=
  match hsub : field.item with
  | Option.none => .error "AttributeError: no item_field"
  | some subfield =>
      if lookup then
        valueForDb value subfield subfield.kind subfield.dbType lookup
      else
        if field_kind = "DictField" then
          match value with
          | .dict kvs =>
              match convDictValues kvs subfield with
              | .error e => .error e
              | .ok pairs =>
                  if db_type = "dict" then .ok (.dict pairs)
                  else if db_type = "list" then .ok (.list (interleave pairs))
                  else .error "generator result not modelled"
          | _ => .error "AttributeError: iteritems"
        else
          match value with
          | .list xs | .set xs =>
              match convItems xs subfield with
              | .error e => .error e
              | .ok ys =>
                  if db_type = "list" then .ok (.list ys)
                  else if db_type = "set" then .ok (.set ys)
                  else .error "generator result not modelled"
          | _ => .error "TypeError: not iterable"
termination_by (sizeOf value, sizeOf field, 1)
decreasing_by
  all_goals first
    | (apply Prod.Lex.right; apply Prod.Lex.left; exact Field.sizeOf_item hsub)
    | ((apply Prod.Lex.left; simp) <;> omega)

/-- The generator `(key, value_for_db(subvalue, ...)) for key, subvalue
in value.iteritems()` of `value_for_db_collection`: converts the values
of dict pairs with the item subfield (the flag passed for `lookup` is
False on this path). -/
def convDictValues (kvs : List (Val × Val)) (subfield : Field) :
    Except String (List (Val × Val)) :=
  match kvs with
  | [] => .ok []
  | (key, subvalue) :: rest =>
      match valueForDb subvalue subfield subfield.kind subfield.dbType false with
      | .error e => .error e
      | .ok w =>
          match convDictValues rest subfield with
          | .error e => .error e
          | .ok ws => .ok ((key, w) :: ws)
termination_by (sizeOf kvs, sizeOf subfield, 0)
decreasing_by
  all_goals ((apply Prod.Lex.left; simp) <;> omega)

/-- The generator `value_for_db(subvalue, ...) for subvalue in value` of
`value_for_db_collection`: converts list or set items with the item
subfield. -/
def convItems (xs : List Val) (subfield : Field) : Except String (List Val) :=
  match xs with
  | [] => .ok []
  | subvalue :: rest =>
      match valueForDb subvalue subfield subfield.kind subfield.dbType false with
      | .error e => .error e
      | .ok w =>
          match convItems rest subfield with
          | .error e => .error e
          | .ok ws => .ok (w :: ws)
termination_by (sizeOf xs, sizeOf subfield, 0)
decreasing_by
  all_goals ((apply Prod.Lex.left; simp) <;> omega)

/-- `value_for_db_model`: converts the
`(embedded_instance, field => value mapping, save_model_info)` tuple
received from an EmbeddedModelField to a dict or a once-flattened list
for storage.  Lookup values are returned unchanged (the source has a
commented-out NotImplementedError here and a TODO asking how embedded
lookups should work).  For untyped embedding (save_model_info) the
module and class name of the embedded instance are appended as the
synthetic `_module` / `_model` entries. -/
def valueForDbModel (value : Val) (field : Field) (field_kind db_type : String)
    (lookup : Bool) : Except String Val :=
  if lookup then .ok value
  else
    match value with
    | .triple module cls field_values save_model_info =>
        match convFieldPairs field_values with
        | .error e => .error e
        | .ok pairs0 =>
            let pairs := if save_model_info then
                pairs0 ++ [(.str "_module", .str module), (.str "_model", .str cls)]
              else pairs0
            if db_type = "dict" then .ok (.dict (pyDictOfPairs pairs))
            else if db_type = "list" then .ok (.list (interleave pairs))
            else .error "generator result not modelled"
    | _ => .error "TypeError: cannot unpack"
termination_by (sizeOf value, sizeOf field, 1)
decreasing_by
  all_goals ((apply Prod.Lex.left; simp) <;> omega)

/-- The generator `(subfield.column, value_for_db(subvalue, ...)) for
subfield, subvalue in field_values.iteritems()` of `value_for_db_model`:
converts each embedded field value using the proper instance field and
changes keys from fields to columns. -/
def convFieldPairs (fps : List (Field × Val)) :
    Except String (List (Val × Val)) :=
  match fps with
  | [] => .ok []
  | (subfield, subvalue) :: rest =>
      match valueForDb subvalue subfield subfield.kind subfield.dbType false with
      | .error e => .error e
      | .ok w =>
          match convFieldPairs rest with
          | .error e => .error e
          | .ok ws => .ok ((.str subfield.column, w) :: ws)
termination_by (sizeOf fps, 0, 0)
decreasing_by
  all_goals ((apply Prod.Lex.left; simp) <;> omega)

end

/-! ## Deconversion from database values (`value_from_db` family) -/

/-- The import hook `getattr(import_module(module), name)`, resolved
through an environment of known model classes (a back-end independent
stand-in for the Python module system). -/
def Registry : Type := String → String → Option Model

/-- First step of `value_from_db_collection` for a DictField: pairs
obtained from `zip(value[::2], value[1::2])` for "list" storage, from
`value.iteritems()` otherwise. -/
def dictPairsView (value : Val) (db_type : String) :
    Except String (List (Val × Val)) :=
  if db_type = "list" then
    match value with
    | .list xs => .ok (zipPairs xs)
    | _ => .error "TypeError: cannot slice"
  else
    match value with
    | .dict kvs => .ok kvs
    | _ => .error "AttributeError: iteritems"

/-- First step of `value_from_db_model`: for "list" storage separate the
flat interleaved list and create a dict
(`dict(zip(value[::2], value[1::2]))`); otherwise the stored value is
already a dict. -/
def modelDictView (value : Val) (db_type : String) :
    Except String (List (Val × Val)) :=
  if db_type = "list" then
    match value with
    | .list xs => .ok (pyDictOfPairs (zipPairs xs))
    | _ => .error "TypeError: cannot slice"
  else
    match value with
    | .dict kvs => .ok kvs
    | _ => .error "AttributeError: pop"

lemma sizeOf_dictPairsView {value : Val} {db_type : String}
    {ps : List (Val × Val)} (h : dictPairsView value db_type = .ok ps) :
    sizeOf ps < sizeOf value := by
  by_cases hdb : db_type = "list" <;> cases value <;>
    simp [dictPairsView, hdb] at h
  case pos.list xs =>
    have hz := sizeOf_zipPairs xs
    subst h
    simp
    omega
  case neg.dict kvs =>
    subst h
    simp

lemma sizeOf_modelDictView {value : Val} {db_type : String}
    {d : List (Val × Val)} (h : modelDictView value db_type = .ok d) :
    sizeOf d < sizeOf value := by
  by_cases hdb : db_type = "list" <;> cases value <;>
    simp [modelDictView, hdb] at h
  case pos.list xs =>
    have hz := sizeOf_zipPairs xs
    have hp := sizeOf_pyDictOfPairs (zipPairs xs)
    subst h
    simp
    omega
  case neg.dict kvs =>
    subst h
    simp

/-- Resolution of the reconstruction target in `value_from_db_model`:
the model class stored alongside the values is used when both `_module`
and `_model` were present (untyped embedding, also lets a stored value
fix the type), the static `field.embedded_model` otherwise. -/
def resolveModel (reg : Registry) (field : Field) :
    Option Val → Option Val → Except String Model
  | some (.str module), some (.str cls) =>
      match reg module cls with
      | some m => .ok m
      | Option.none => .error "ImportError"
  | some _, some _ => .error "TypeError: import_module expects a string"
  | _, _ =>
      match field.embedded with
      | some m => .ok m
      | Option.none => .error "AttributeError: no embedded_model"

mutual

/-- `value_from_db`: converts a database type back to a type acceptable
by the field; the exact inverse of the encoding done by `value_for_db`.
None is returned as is; elements of collection fields are deconverted
recursively and embedded models are reinstantiated; any other value is
passed through.  Lookup values never get deconverted. -/
def valueFromDb (reg : Registry) (value : Val) (field : Field)
    (field_kind db_type : String) : Except String Val :=
  match value with
  | .none => .ok .none
  | value =>
      if field_kind = "ListField" ∨ field_kind = "SetField" ∨
          field_kind = "DictField" then
        valueFromDbCollection reg value field field_kind db_type
      else if field_kind = "EmbeddedModelField" then
        valueFromDbModel reg value field field_kind db_type
      else
        .ok value
termination_by (sizeOf value, 0, 2)
decreasing_by
  all_goals apply Prod.Lex.right
  all_goals apply Prod.Lex.right
  all_goals omega

/-- `value_from_db_collection`: recursively deconverts values for
AbstractIterableFields, assuming all values in a collection can be
deconverted using the single item subfield. -/
def valueFromDbCollection (reg : Registry) (value : Val) (field : Field)
    (field_kind db_type : String) : Except String Val :=
  match field.item with
  | Option.none => .error "AttributeError: no item_field"
  | some subfield =>
      if field_kind = "DictField" then
        match hv : dictPairsView value db_type with
        | .error e => .error e
        | .ok ps =>
            match deconvDictValues reg ps subfield with
            | .error e => .error e
            | .ok qs => .ok (.dict (pyDictOfPairs qs))
      else
        match value with
        | .list xs | .set xs =>
            match deconvItems reg xs subfield with
            | .error e => .error e
            | .ok ys =>
                if field_kind = "ListField" then .ok (.list ys)
                else if field_kind = "SetField" then .ok (.set ys)
                else .error "generator result not modelled"
        | _ => .error "TypeError: not iterable"
termination_by (sizeOf value, 0, 1)
decreasing_by
  all_goals first
    | (apply Prod.Lex.left; exact sizeOf_dictPairsView hv)
    | ((apply Prod.Lex.left; simp) <;> omega)

/-- The dict comprehension of `value_from_db_collection`: deconverts the
value of each pair with the item subfield. -/
def deconvDictValues (reg : Registry) (ps : List (Val × Val))
    (subfield : Field) : Except String (List (Val × Val)) :=
  match ps with
  | [] => .ok []
  | (key, subvalue) :: rest =>
      match valueFromDb reg subvalue subfield subfield.kind subfield.dbType with
      | .error e => .error e
      | .ok w =>
          match deconvDictValues reg rest subfield with
          | .error e => .error e
          | .ok ws => .ok ((key, w) :: ws)
termination_by (sizeOf ps, 0, 0)
decreasing_by
  all_goals ((apply Prod.Lex.left; simp) <;> omega)

/-- The generator `value_from_db(subvalue, ...) for subvalue in value`
of `value_from_db_collection`: deconverts list or set items. -/
def deconvItems (reg : Registry) (xs : List Val) (subfield : Field) :
    Except String (List Val) :=
  match xs with
  | [] => .ok []
  | subvalue :: rest =>
      match valueFromDb reg subvalue subfield subfield.kind subfield.dbType with
      | .error e => .error e
      | .ok w =>
          match deconvItems reg rest subfield with
          | .error e => .error e
          | .ok ws => .ok (w :: ws)
termination_by (sizeOf xs, 0, 0)
decreasing_by
  all_goals ((apply Prod.Lex.left; simp) <;> omega)

/-- `value_from_db_model`: reinstantiates a serialized model.  The
stored pairs are viewed as a dict, the synthetic `_module` / `_model`
entries are popped, the target model is resolved (stored values first,
to support fixing the type), and each subfield of the target model is
deconverted independently, leaving fields without a stored column
uninitialized. -/
def valueFromDbModel (reg : Registry) (value : Val) (field : Field)
    (field_kind db_type : String) : Except String Val :=
  match hv : modelDictView value db_type with
  | .error e => .error e
  | .ok d =>
      let pm := pyPop d (.str "_module")
      let pc := pyPop pm.2 (.str "_model")
      match resolveModel reg field pm.1 pc.1 with
      | .error e => .error e
      | .ok model =>
          match deconvModelFields reg model.fields pc.2 with
          | .error e => .error e
          | .ok data => .ok (.inst model data)
termination_by (sizeOf value, 0, 1)
decreasing_by
  apply Prod.Lex.left
  have h1 := sizeOf_modelDictView hv
  have h2 := sizeOf_pyPop_le d (.str "_module")
  have h3 := sizeOf_pyPop_le (pyPop d (.str "_module")).2 (.str "_model")
  omega

/-- The subfield loop of `value_from_db_model`: builds the initializer
data, skipping subfields whose column raises KeyError. -/
def deconvModelFields (reg : Registry) (flds : List Field)
    (d : List (Val × Val)) : Except String (List (String × Val)) :=
  match flds with
  | [] => .ok []
  | subfield :: rest =>
      match hl : pyLookup d (.str subfield.column) with
      | Option.none => deconvModelFields reg rest d
      | some v =>
          match valueFromDb reg v subfield subfield.kind subfield.dbType with
          | .error e => .error e
          | .ok w =>
              match deconvModelFields reg rest d with
              | .error e => .error e
              | .ok ws => .ok ((subfield.attname, w) :: ws)
termination_by (sizeOf d, sizeOf flds, 0)
decreasing_by
  all_goals first
    | (apply Prod.Lex.left; exact sizeOf_pyLookup hl)
    | (apply Prod.Lex.right; (apply Prod.Lex.left; simp) <;> omega)

end

/-! Unfolding equations for `deconvModelFields` (its match carries the
equation hypothesis needed for termination, which keeps plain rewriting
from reducing it; these lemmas restore that). -/

@[simp] lemma deconvModelFields_nil (reg : Registry) (d : List (Val × Val)) :
    deconvModelFields reg [] d = .ok [] := by
  rw [deconvModelFields]

lemma deconvModelFields_cons_missing {d : List (Val × Val)} {subfield : Field}
    (reg : Registry) (rest : List Field)
    (hl : pyLookup d (.str subfield.column) = Option.none) :
    deconvModelFields reg (subfield :: rest) d = deconvModelFields reg rest d := by
  rw [deconvModelFields]
  split
  · rfl
  · rename_i v heq
    rw [hl] at heq
    cases heq

lemma deconvModelFields_cons_found {d : List (Val × Val)} {subfield : Field}
    {v : Val} (reg : Registry) (rest : List Field)
    (hl : pyLookup d (.str subfield.column) = some v) :
    deconvModelFields reg (subfield :: rest) d =
      match valueFromDb reg v subfield subfield.kind subfield.dbType with
      | .error e => .error e
      | .ok w =>
          match deconvModelFields reg rest d with
          | .error e => .error e
          | .ok ws => .ok ((subfield.attname, w) :: ws) := by
  rw [deconvModelFields]
  split
  · rename_i heq
    rw [hl] at heq
    cases heq
  · rename_i v1 heq
    rw [hl] at heq
    cases heq
    rfl

/-! ## The query compilation layer (`NonrelQuery`, basecompiler.py) -/

/-- A WHERE-tree constraint as `_decode_child` / `_matches_filters` see
it after `constraint.process(lookup_type, value, connection)`:
`tableAlias` / `column` / `dbType` are the packed triple the external
`process` returns, `field` is `constraint.field` (None for comparisons
to NULL).  A missing alias models a falsy one. -/
structure Constraint : Type where
  tableAlias : Option String
  column : String
  dbType : String
  field : Option Field
  deriving DecidableEq

/-- A node of the WHERE tree built by Django (`django.utils.tree.Node`):
an internal node with a boolean connector, a negation flag and ordered
children, or a constraint leaf tuple
`(constraint, lookup_type, annotation, value)`. -/
inductive WChild : Type where
  | node (connector : String) (negated : Bool) (children : List WChild) : WChild
  | leaf (constraint : Constraint) (lookupType : String) (ann : Val)
      (value : Val) : WChild

mutual

def WChild.deq : (a b : WChild) → Decidable (a = b)
  | .node c1 n1 ch1, .node c2 n2 ch2 =>
      match decEq c1 c2, decEq n1 n2, WChild.deqList ch1 ch2 with
      | isTrue h1, isTrue h2, isTrue h3 => isTrue (by rw [h1, h2, h3])
      | isFalse h, _, _ => isFalse (by intro hc; cases hc; exact h rfl)
      | _, isFalse h, _ => isFalse (by intro hc; cases hc; exact h rfl)
      | _, _, isFalse h => isFalse (by intro hc; cases hc; exact h rfl)
  | .leaf c1 l1 a1 v1, .leaf c2 l2 a2 v2 =>
      match decEq c1 c2, decEq l1 l2, decEq a1 a2, decEq v1 v2 with
      | isTrue h1, isTrue h2, isTrue h3, isTrue h4 =>
          isTrue (by rw [h1, h2, h3, h4])
      | isFalse h, _, _, _ => isFalse (by intro hc; cases hc; exact h rfl)
      | _, isFalse h, _, _ => isFalse (by intro hc; cases hc; exact h rfl)
      | _, _, isFalse h, _ => isFalse (by intro hc; cases hc; exact h rfl)
      | _, _, _, isFalse h => isFalse (by intro hc; cases hc; exact h rfl)
  | .node _ _ _, .leaf _ _ _ _ => isFalse (by intro h; cases h)
  | .leaf _ _ _ _, .node _ _ _ => isFalse (by intro h; cases h)
termination_by structural a => a

def WChild.deqList : (a b : List WChild) → Decidable (a = b)
  | [], [] => isTrue rfl
  | [], _ :: _ => isFalse (by intro h; cases h)
  | _ :: _, [] => isFalse (by intro h; cases h)
  | x :: xs, y :: ys =>
      match WChild.deq x y, WChild.deqList xs ys with
      | isTrue h1, isTrue h2 => isTrue (by rw [h1, h2])
      | isFalse h1, _ => isFalse (by intro hc; cases hc; exact h1 rfl)
      | _, isFalse h2 => isFalse (by intro hc; cases hc; exact h2 rfl)
termination_by structural a => a

end

instance : DecidableEq WChild := WChild.deq

/-- One dispatched
`add_filter(column, lookup_type, negated, value, field, db_type)` call. -/
structure FilterCall : Type where
  column : String
  lookupType : String
  negated : Bool
  value : Val
  field : Option Field
  dbType : String
  deriving DecidableEq

/-- Python slice `value[:-1]` for the values the percent-stripping
branches can meet: a string drops its last character, a list its last
element, anything else raises. -/
def pySliceDropLast : Val → Except String Val
  | .str s => .ok (.str (s.dropRight 1))
  | .list xs => .ok (.list xs.dropLast)
  | _ => .error "TypeError: unsliceable value"

/-- Python slice `value[1:]`. -/
def pySliceDropFirst : Val → Except String Val
  | .str s => .ok (.str (s.drop 1))
  | .list xs => .ok (.list (xs.drop 1))
  | _ => .error "TypeError: unsliceable value"

/-- `_normalize_lookup_value`: undoes preparations done by
`Field.get_db_prep_lookup` that do not suit nonrel back-ends.  Most
values arrive wrapped in a list and are unwrapped (`in`, `range` and
`year` keep their sequences); `isnull` substitutes the annotation;
prefix / suffix / substring lookups strip the percents added for LIKE
expressions.  The DecimalField workaround calls `field.to_python` and
`value_to_db_decimal`, which is defined in base.py to do no conversion
(and `to_python` is external Django machinery, modelled as identity),
so that branch returns the value unchanged. -/
def normalizeLookupValue (lookupType : String) (value : Val)
    (field : Option Field) (ann : Val) : Except String Val :=
  let step1 : Except String Val :=
    if lookupType ≠ "in" ∧ lookupType ≠ "range" ∧ lookupType ≠ "year" then
      match value with
      | .list vs =>
          if vs.length > 1 then
            .error "DatabaseError: only in-filters can be used with lists"
          else if lookupType = "isnull" then .ok ann
          else
            match vs with
            | [v] => .ok v
            | _ => .error "IndexError: list index out of range"
      | v => .ok v
    else .ok value
  match step1 with
  | .error e => .error e
  | .ok v1 =>
      let step2 : Except String Val :=
        if lookupType = "startswith" ∨ lookupType = "istartswith" then
          pySliceDropLast v1
        else if lookupType = "endswith" ∨ lookupType = "iendswith" then
          pySliceDropFirst v1
        else if lookupType = "contains" ∨ lookupType = "icontains" then
          match pySliceDropFirst v1 with
          | .error e => .error e
          | .ok v2 => pySliceDropLast v2
        else .ok v1
      match step2 with
      | .error e => .error e
      | .ok v2 =>
          match field with
          | some f =>
              if f.kind = "DecimalField" then .ok v2 else .ok v2
          | Option.none => .ok v2

/-- `_decode_child`: produces arguments suitable for `add_filter` from a
WHERE-tree leaf.  `constraint.process` is external Django machinery,
modelled as returning the packed triple stored on the constraint and
the leaf value unchanged (the value on the leaf is the processed one).
A leaf whose alias is set and differs from the primary table signals
that JOINs are unsupported. -/
def decodeChild (table : String) (c : Constraint) (lookupType : String)
    (ann : Val) (value : Val) :
    Except String (String × String × Val × Option Field × String) :=
  let aliasOk : Except String Unit :=
    match c.tableAlias with
    | some a =>
        if a ≠ table then
          .error "DatabaseError: no JOINs and no multi-table inheritance"
        else .ok ()
    | Option.none => .ok ()
  match aliasOk with
  | .error e => .error e
  | .ok _ =>
      match normalizeLookupValue lookupType value c.field ann with
      | .error e => .error e
      | .ok v => .ok (c.column, lookupType, v, c.field, c.dbType)

/-- `_get_children`: filters out WHERE-tree nodes not needed for nonrel
queries: `isnull` leaves whose constraint has no field, automatically
added by sql.Query but unnecessary with emulated negation handling. -/
def getChildren (children : List WChild) : List WChild :=
  children.filter fun child =>
    match child with
    | .leaf c lookupType _ _ =>
        if lookupType = "isnull" ∧ c.field = Option.none then false else true
    | .node .. => true

lemma sizeOf_filter_le {α : Type} [SizeOf α] (p : α → Bool) (l : List α) :
    sizeOf (l.filter p) ≤ sizeOf l := by
  induction l with
  | nil => simp
  | cons a rest ih =>
      by_cases hp : p a
      · simp [List.filter, hp]
        omega
      · simp [List.filter, hp]
        omega

lemma sizeOf_getChildren_le (children : List WChild) :
    sizeOf (getChildren children) ≤ sizeOf children :=
  sizeOf_filter_le _ children

mutual

/-- `add_filters`: converts a WHERE constraint tree to nonrel filters,
returning the dispatched `add_filter` calls and the final `_negated`
state (the source toggles the `_negated` instance attribute on entering
and again on leaving a negated subtree; here the flag is threaded
explicitly).  The leaf alternative mirrors Python failing to read the
node attributes of a tuple; valid roots are always internal nodes. -/
def addFilters (table : String) (negated : Bool) :
    WChild → Except String (List FilterCall × Bool)
  | .leaf .. => .error "AttributeError: a leaf is not a tree node"
  | .node connector isNeg children =>
      let neg1 := if isNeg then !negated else negated
      if ¬neg1 ∧ connector ≠ "AND" then
        .error "DatabaseError: only AND filters are supported"
      else
        let kept := getChildren children
        if neg1 ∧ connector ≠ "OR" ∧ kept.length > 1 then
          .error "DatabaseError: negating a whole filter subgroup needs OR"
        else
          match addFiltersLoop table neg1 kept with
          | .error e => .error e
          | .ok (calls, negAfter) =>
              .ok (calls, if isNeg then !negAfter else negAfter)
termination_by child => sizeOf child
decreasing_by
  simp
  exact Nat.lt_of_le_of_lt (sizeOf_getChildren_le _) (by omega)

/-- The child loop of `add_filters`: internal nodes recurse, leaves are
decoded and dispatched with the current negation state. -/
def addFiltersLoop (table : String) (negated : Bool) :
    List WChild → Except String (List FilterCall × Bool)
  | [] => .ok ([], negated)
  | child :: rest =>
      match child with
      | .node conn n cs =>
          match addFilters table negated (.node conn n cs) with
          | .error e => .error e
          | .ok (calls1, neg1) =>
              match addFiltersLoop table neg1 rest with
              | .error e => .error e
              | .ok (calls2, neg2) => .ok (calls1 ++ calls2, neg2)
      | .leaf c lookupType ann value =>
          match decodeChild table c lookupType ann value with
          | .error e => .error e
          | .ok (column, lt2, v, fld, dbt) =>
              match addFiltersLoop table negated rest with
              | .error e => .error e
              | .ok (calls, negAfter) =>
                  .ok ({ column := column, lookupType := lt2, negated := negated,
                         value := v, field := fld, dbType := dbt } :: calls,
                       negAfter)
termination_by children => sizeOf children
decreasing_by
  all_goals simp
  all_goals omega

end

/-! ## The in-memory filter engine (`_matches_filters` and EMULATED_OPS) -/

/-- Python truthiness of the values an `isnull` annotation or lookup
value can take. -/
def pyTruthy : Val → Bool
  | .none => false
  | .bool b => b
  | .int n => decide (n ≠ 0)
  | .str s => decide (s ≠ "")
  | .lazy s => decide (s ≠ "")
  | .date _ => true
  | .datetime _ => true
  | .time _ => true
  | .list xs => decide (xs ≠ [])
  | .set xs => decide (xs ≠ [])
  | .dict kvs => decide (kvs ≠ [])
  | .triple .. => true
  | .inst .. => true

/-- Ordered comparison for the homogeneous pairs the in-memory engine
meets: integers, strings and the date / datetime / time ordinals.
Python 2 would order ANY pair of values by an unspecified but
consistent cross-type rule; that rule is not modelled, so comparing
values of different shapes reports an error. -/
def pyCompare : Val → Val → Except String Ordering
  | .int a, .int b => .ok (compare a b)
  | .str a, .str b => .ok (compare a b)
  | .date a, .date b => .ok (compare a b)
  | .datetime a, .datetime b => .ok (compare a b)
  | .time a, .time b => .ok (compare a b)
  | _, _ => .error "cross-type ordering not modelled"

/-- The EMULATED_OPS table (basecompiler.py): operator semantics for
in-memory filtering, with `x` the entity value and `y` the lookup
value.  The table has no entry for `contains`, `endswith` or their
case-insensitive forms -- looking those up raises KeyError. -/
def emulatedOp (lookupType : String) (x y : Val) : Except String Bool :=
  if lookupType = "exact" then
    match x with
    | .list xs => .ok (xs.contains y)
    | x => .ok (decide (x = y))
  else if lookupType = "iexact" then
    match x, y with
    | .str a, .str b => .ok (decide (a.toLower = b.toLower))
    | _, _ => .error "AttributeError: lower"
  else if lookupType = "startswith" then
    match x, y with
    | .str a, .str b => .ok (a.startsWith b)
    | _, _ => .error "AttributeError: startswith"
  else if lookupType = "istartswith" then
    match x, y with
    | .str a, .str b => .ok (a.toLower.startsWith b.toLower)
    | _, _ => .error "AttributeError: startswith"
  else if lookupType = "isnull" then
    .ok (if pyTruthy y then decide (x = .none) else decide (x ≠ .none))
  else if lookupType = "in" then
    match y with
    | .list ys => .ok (ys.contains x)
    | .set ys => .ok (ys.contains x)
    | .dict kvs => .ok (pyLookup kvs x).isSome
    | _ => .error "TypeError: not a container"
  else if lookupType = "lt" then
    match pyCompare x y with
    | .error e => .error e
    | .ok o => .ok (decide (o = Ordering.lt))
  else if lookupType = "lte" then
    match pyCompare x y with
    | .error e => .error e
    | .ok o => .ok (decide (o ≠ Ordering.gt))
  else if lookupType = "gt" then
    match pyCompare x y with
    | .error e => .error e
    | .ok o => .ok (decide (o = Ordering.gt))
  else if lookupType = "gte" then
    match pyCompare x y with
    | .error e => .error e
    | .ok o => .ok (decide (o ≠ Ordering.lt))
  else .error "KeyError: unknown lookup type"

/-- A database entity as `_matches_filters` and `_make_result` see it: a
mapping from column names to stored values. -/
def Entity : Type := List (String × Val)

/-- First-match lookup among the columns of an entity. -/
def sLookup (e : List (String × Val)) (column : String) : Option Val :=
  match e with
  | [] => Option.none
  | (c, v) :: rest => if c = column then some v else sLookup rest column

/-- `entity[column]`: raises KeyError when the column is absent. -/
def entityGet (e : Entity) (column : String) : Except String Val :=
  match sLookup e column with
  | some v => .ok v
  | Option.none => .error "KeyError: no such column"

/-- The leaf case of `_matches_filters`: process the constraint (alias
check against the primary table -- here a falsy alias also raises,
unlike `_decode_child`), unwrap a list value (only the `in` lookup keeps
its list; no percent stripping happens on this path -- the source
carries a TODO to reuse `_decode_child`), then apply the NULL
conventions: a None entity value satisfies `lt` / `lte` against a
date / datetime / time lookup value, text operators on None are false,
and anything else falls through to EMULATED_OPS. -/
def matchesLeaf (table : String) (entity : Entity) (c : Constraint)
    (lookupType : String) (ann : Val) (value : Val) : Except String Bool :=
  if c.tableAlias ≠ some table then
    .error "DatabaseError: no JOINs and no multi-table inheritance"
  else
    let step1 : Except String Val :=
      if lookupType ≠ "in" then
        match value with
        | .list vs =>
            if vs.length > 1 then
              .error "DatabaseError: only in-filters can be used with lists"
            else if lookupType = "isnull" then .ok ann
            else
              match vs with
              | [v] => .ok v
              | _ => .error "IndexError: list index out of range"
        | v => .ok v
      else .ok value
    match step1 with
    | .error e => .error e
    | .ok v1 =>
        match entityGet entity c.column with
        | .error e => .error e
        | .ok x =>
            if x = .none then
              match v1 with
              | .date _ | .datetime _ | .time _ =>
                  .ok (decide (lookupType = "lt" ∨ lookupType = "lte"))
              | _ =>
                  if lookupType = "startswith" ∨ lookupType = "contains" ∨
                      lookupType = "endswith" ∨ lookupType = "iexact" ∨
                      lookupType = "istartswith" ∨ lookupType = "icontains" ∨
                      lookupType = "iendswith" then
                    .ok false
                  else emulatedOp lookupType x v1
            else emulatedOp lookupType x v1

mutual

/-- `_matches_filters`: checks whether an entity returned by the
database would match the constraints in a WHERE tree.  A filter without
children matches everything (before the negation flag is consulted);
AND short-circuits to false on the first non-match and OR to true on
the first match; the negated flag finally inverts the result. -/
def matchesFilters (table : String) (entity : Entity) :
    WChild → Except String Bool
  | .leaf .. => .error "AttributeError: a leaf is not a tree node"
  | .node connector negated children =>
      if children = [] then .ok true
      else
        match matchesLoop table entity connector (connector = "AND") children with
        | .error e => .error e
        | .ok result => .ok (if negated then !result else result)
termination_by child => sizeOf child
decreasing_by
  simp <;> omega

/-- The child loop of `_matches_filters` with the running result. -/
def matchesLoop (table : String) (entity : Entity) (connector : String)
    (result : Bool) : List WChild → Except String Bool
  | [] => .ok result
  | child :: rest =>
      match (match child with
             | .node c2 n cs => matchesFilters table entity (.node c2 n cs)
             | .leaf c2 lt2 ann v => matchesLeaf table entity c2 lt2 ann v) with
      | .error e => .error e
      | .ok submatch =>
          if connector = "OR" ∧ submatch then .ok true
          else if connector = "AND" ∧ ¬submatch then .ok false
          else matchesLoop table entity connector result rest
termination_by children => sizeOf children
decreasing_by
  all_goals simp
  all_goals omega

end

/-! ## The compiler (`NonrelCompiler` and the insert compiler) -/

/-- `_make_result`: decodes values for the given fields from a database
entity.  A column absent from the entity yields the field default
(`field.get_default()`, Django machinery, passed in as `getDefault`);
a present value runs through the back-end conversion
(`convert_value_from_db`) and then `query.convert_values`, both driver /
Django supplied and passed in as functions.  A None result for a
non-nullable field raises IntegrityError naming the field. -/
def makeResult (convDb : Val → Field → Except String Val)
    (convQuery : Val → Field → Except String Val)
    (getDefault : Field → Val) (entity : Entity) :
    List Field → Except String (List Val)
  | [] => .ok []
  | field :: rest =>
      let step : Except String Val :=
        match sLookup entity field.column with
        | Option.none => .ok (getDefault field)
        | some v =>
            match convDb v field with
            | .error e => .error e
            | .ok w => convQuery w field
      match step with
      | .error e => .error e
      | .ok value =>
          if value = .none ∧ ¬field.null then
            .error ("IntegrityError: non-nullable field " ++ field.name ++
                    " cannot be None")
          else
            match makeResult convDb convQuery getDefault entity rest with
            | .error e => .error e
            | .ok vs => .ok (value :: vs)

/-- The low / high marks of the orchestrating sql.Query. -/
structure QueryMarks : Type where
  lowMark : Nat
  highMark : Option Nat

/-- `get_count`: counts objects matching the current constraints by
calling `build_query().count(high_mark)` on the driver query.  When
`check_exists` is set the window passed to the driver is capped at one
record, regardless of the marks of the orchestrating query; otherwise
the high mark of the query is forwarded.  The driver `count` is
abstract and enters as a function of the limit. -/
def getCount (driverCount : Option Nat → Nat) (marks : QueryMarks)
    (checkExists : Bool) : Nat :=
  driverCount (if checkExists then some 1 else marks.highMark)

/-- `NonrelInsertCompiler.execute_sql` over
`zip(self.query.values, self.query.columns)`: a non-nullable field set
to None raises IntegrityError before the conversion for that field is
invoked; otherwise each value with a field is encoded through
`convert_value_for_db` (passed in as `conv`) and stored under its
column.  Alongside the outcome, the list of conversion calls actually
made is returned, witnessing which fields were encoded. -/
def insertLoop (conv : Val → Field → Except String Val) :
    List ((Option Field × Val) × String) →
    Except String (List (String × Val)) × List (Field × Val)
  | [] => (.ok [], [])
  | ((fieldOpt, value), column) :: rest =>
      match fieldOpt with
      | Option.none =>
          let r := insertLoop conv rest
          (match r.1 with
           | .error e => .error e
           | .ok d => .ok ((column, value) :: d), r.2)
      | some field =>
          if ¬field.null ∧ value = .none then
            (.error ("IntegrityError: cannot set non-nullable field " ++
                     field.name ++ " to None"), [])
          else
            match conv value field with
            | .error e => (.error e, [(field, value)])
            | .ok w =>
                let r := insertLoop conv rest
                (match r.1 with
                 | .error e => .error e
                 | .ok d => .ok ((column, w) :: d), (field, value) :: r.2)

/-- `execute_sql` proper: zips the values with their columns and runs
the loop; the data mapping is what would be handed to the back-end
`insert`. -/
def insertExecuteSql (conv : Val → Field → Except String Val)
    (values : List (Option Field × Val)) (columns : List String) :
    Except String (List (String × Val)) × List (Field × Val) :=
  insertLoop conv (values.zip columns)

/-! ## Derived equations and auxiliary lemmas -/

@[simp] lemma getChildren_nil : getChildren [] = [] := rfl

lemma getChildren_cons_node (conn : String) (n : Bool) (cs rest : List WChild) :
    getChildren (.node conn n cs :: rest) = .node conn n cs :: getChildren rest := by
  simp [getChildren]

lemma getChildren_cons_leaf_keep {c : Constraint} {l : String}
    (h : ¬(l = "isnull" ∧ c.field = Option.none)) (a v : Val) (rest : List WChild) :
    getChildren (.leaf c l a v :: rest) = .leaf c l a v :: getChildren rest := by
  simp [getChildren, List.filter_cons, h]

lemma getChildren_cons_leaf_drop {c : Constraint} {l : String}
    (h : l = "isnull" ∧ c.field = Option.none) (a v : Val) (rest : List WChild) :
    getChildren (.leaf c l a v :: rest) = getChildren rest := by
  simp [getChildren, List.filter_cons, h]

lemma addFilters_leaf_eq (table : String) (st : Bool) (c : Constraint)
    (l : String) (a v : Val) :
    addFilters table st (.leaf c l a v) =
      .error "AttributeError: a leaf is not a tree node" := by
  rw [addFilters]

lemma addFilters_node_eq (table : String) (st : Bool) (conn : String)
    (isNeg : Bool) (children : List WChild) :
    addFilters table st (.node conn isNeg children) =
      (if ¬(if isNeg then !st else st) = true ∧ conn ≠ "AND" then
        .error "DatabaseError: only AND filters are supported"
      else if (if isNeg then !st else st) = true ∧ conn ≠ "OR" ∧
          (getChildren children).length > 1 then
        .error "DatabaseError: negating a whole filter subgroup needs OR"
      else
        match addFiltersLoop table (if isNeg then !st else st)
            (getChildren children) with
        | .error e => .error e
        | .ok (calls, negAfter) =>
            .ok (calls, if isNeg then !negAfter else negAfter)) := by
  rw [addFilters]

lemma addFiltersLoop_nil_eq (table : String) (st : Bool) :
    addFiltersLoop table st [] = .ok ([], st) := by
  rw [addFiltersLoop]

lemma addFiltersLoop_cons_node_eq (table : String) (st : Bool) (conn : String)
    (n : Bool) (cs rest : List WChild) :
    addFiltersLoop table st (.node conn n cs :: rest) =
      (match addFilters table st (.node conn n cs) with
       | .error e => .error e
       | .ok (calls1, neg1) =>
           match addFiltersLoop table neg1 rest with
           | .error e => .error e
           | .ok (calls2, neg2) => .ok (calls1 ++ calls2, neg2)) := by
  rw [addFiltersLoop]

lemma addFiltersLoop_cons_leaf_eq (table : String) (st : Bool) (c : Constraint)
    (l : String) (a v : Val) (rest : List WChild) :
    addFiltersLoop table st (.leaf c l a v :: rest) =
      (match decodeChild table c l a v with
       | .error e => .error e
       | .ok (column, lt2, w, fld, dbt) =>
           match addFiltersLoop table st rest with
           | .error e => .error e
           | .ok (calls, negAfter) =>
               .ok ({ column := column, lookupType := lt2, negated := st,
                      value := w, field := fld, dbType := dbt } :: calls,
                    negAfter)) := by
  rw [addFiltersLoop]

lemma addFilters_restores_aux (table : String) :
    ∀ n : Nat,
      (∀ child : WChild, sizeOf child ≤ n → ∀ st calls st2,
          addFilters table st child = .ok (calls, st2) → st2 = st) ∧
      (∀ cs : List WChild, sizeOf cs ≤ n → ∀ st calls st2,
          addFiltersLoop table st cs = .ok (calls, st2) → st2 = st) := by
  intro n
  induction n with
  | zero =>
      constructor
      · intro child hsz
        exfalso
        cases child <;> simp at hsz
      · intro cs hsz
        exfalso
        cases cs <;> simp at hsz
  | succ n ih =>
      constructor
      · intro child hsz st calls st2 h
        match child with
        | .leaf c l a v =>
            rw [addFilters_leaf_eq] at h
            cases h
        | .node conn isNeg children =>
            rw [addFilters_node_eq] at h
            by_cases hc1 : ¬(if isNeg then !st else st) = true ∧ conn ≠ "AND"
            · rw [if_pos hc1] at h
              cases h
            · rw [if_neg hc1] at h
              by_cases hc2 : (if isNeg then !st else st) = true ∧ conn ≠ "OR" ∧
                  (getChildren children).length > 1
              · rw [if_pos hc2] at h
                cases h
              · rw [if_neg hc2] at h
                rcases hloop : addFiltersLoop table (if isNeg then !st else st)
                    (getChildren children) with e | ⟨calls0, negAfter⟩
                · rw [hloop] at h
                  cases h
                · rw [hloop] at h
                  have hksz : sizeOf (getChildren children) ≤ n := by
                    have h1 := sizeOf_getChildren_le children
                    simp at hsz
                    omega
                  have hna := ih.2 (getChildren children) hksz
                    (if isNeg then !st else st) calls0 negAfter hloop
                  injection h with h2
                  injection h2 with h3 h4
                  rw [← h4, hna]
                  cases isNeg <;> simp
      · intro cs hsz st calls st2 h
        match cs with
        | [] =>
            rw [addFiltersLoop_nil_eq] at h
            injection h with h2
            injection h2 with h3 h4
            exact h4.symm
        | .node conn nn ncs :: rest =>
            rw [addFiltersLoop_cons_node_eq] at h
            rcases haf : addFilters table st (.node conn nn ncs) with e | ⟨calls1, neg1⟩
            · rw [haf] at h
              cases h
            · rw [haf] at h
              dsimp only at h
              rcases hloop : addFiltersLoop table neg1 rest with e | ⟨calls2, neg2⟩
              · rw [hloop] at h
                cases h
              · rw [hloop] at h
                have hsz1 : sizeOf (WChild.node conn nn ncs) ≤ n := by
                  simp at hsz ⊢
                  omega
                have hsz2 : sizeOf rest ≤ n := by
                  simp at hsz
                  omega
                have e1 := ih.1 (.node conn nn ncs) hsz1 st calls1 neg1 haf
                have e2 := ih.2 rest hsz2 neg1 calls2 neg2 hloop
                injection h with h2
                injection h2 with h3 h4
                rw [← h4, e2, e1]
        | .leaf c l a v :: rest =>
            rw [addFiltersLoop_cons_leaf_eq] at h
            rcases hdc : decodeChild table c l a v with e | ⟨col, lt2, w, fld, dbt⟩
            · rw [hdc] at h
              cases h
            · rw [hdc] at h
              dsimp only at h
              rcases hloop : addFiltersLoop table st rest with e | ⟨calls2, neg2⟩
              · rw [hloop] at h
                cases h
              · rw [hloop] at h
                have hsz2 : sizeOf rest ≤ n := by
                  simp at hsz
                  omega
                have e2 := ih.2 rest hsz2 st calls2 neg2 hloop
                injection h with h2
                injection h2 with h3 h4
                rw [← h4, e2]

lemma insertLoop_append_error (conv : Val → Field → Except String Val)
    (xs ys : List ((Option Field × Val) × String)) (e : String)
    (hy : insertLoop conv ys = (.error e, []))
    (d : List (String × Val)) (hx : (insertLoop conv xs).1 = .ok d) :
    insertLoop conv (xs ++ ys) = (.error e, (insertLoop conv xs).2) := by
  induction xs generalizing d with
  | nil =>
      simp only [List.nil_append, hy, insertLoop]
  | cons p rest ih =>
      obtain ⟨⟨fieldOpt, value⟩, column⟩ := p
      rw [List.cons_append]
      match fieldOpt with
      | Option.none =>
          simp only [insertLoop] at hx ⊢
          rcases hr : (insertLoop conv rest).1 with e2 | dr <;> rw [hr] at hx <;>
            simp at hx
          rw [ih dr hr]
      | some field =>
          by_cases hviol : ¬field.null = true ∧ value = .none
          · simp only [insertLoop, if_pos hviol] at hx
            simp at hx
          · simp only [insertLoop, if_neg hviol] at hx ⊢
            rcases hc : conv value field with e2 | w <;> (try rw [hc] at hx) <;>
              dsimp only at hx ⊢
            · simp at hx
            · rcases hr : (insertLoop conv rest).1 with e2 | dr <;> rw [hr] at hx <;>
                simp at hx
              rw [ih dr hr]

lemma zipPairs_interleave : ∀ ps : List (Val × Val), zipPairs (interleave ps) = ps
  | [] => rfl
  | (k, v) :: rest => by
      simp [interleave, zipPairs, zipPairs_interleave rest]

lemma pyDictInsert_append {k : Val} :
    ∀ {acc : List (Val × Val)}, (∀ q ∈ acc, q.1 ≠ k) → ∀ (v : Val),
      pyDictInsert acc k v = acc ++ [(k, v)] := by
  intro acc
  induction acc with
  | nil => intro _ v; rfl
  | cons q rest ih =>
      intro hq v
      obtain ⟨k1, v1⟩ := q
      have hne : k1 ≠ k := hq (k1, v1) (by simp)
      simp [pyDictInsert, hne]
      exact ih (fun p hp => hq p (by simp [hp])) v

lemma pyDictOfPairs_foldl_nodup :
    ∀ (kvs acc : List (Val × Val)),
      (∀ p ∈ kvs, ∀ q ∈ acc, q.1 ≠ p.1) →
      kvs.Pairwise (fun a b => a.1 ≠ b.1) →
      kvs.foldl (fun a kv => pyDictInsert a kv.1 kv.2) acc = acc ++ kvs := by
  intro kvs
  induction kvs with
  | nil => intro acc _ _; simp
  | cons p rest ih =>
      intro acc hacc hpw
      obtain ⟨k, v⟩ := p
      simp only [List.foldl_cons]
      rw [pyDictInsert_append (fun q hq => hacc (k, v) (by simp) q hq) v]
      rw [ih (acc ++ [(k, v)]) ?_ (List.Pairwise.of_cons hpw)]
      · simp
      · intro p hp q hq
        rcases List.mem_append.mp hq with hq1 | hq2
        · exact hacc p (by simp [hp]) q hq1
        · simp at hq2
          subst hq2
          exact (List.pairwise_cons.mp hpw).1 p hp

lemma pyDictOfPairs_nodup {kvs : List (Val × Val)}
    (h : kvs.Pairwise (fun a b => a.1 ≠ b.1)) : pyDictOfPairs kvs = kvs := by
  rw [pyDictOfPairs, pyDictOfPairs_foldl_nodup kvs [] (by simp) h]
  simp

lemma pyLookup_cons_ne {k1 v1 k : Val} {rest : List (Val × Val)} (h : k1 ≠ k) :
    pyLookup ((k1, v1) :: rest) k = pyLookup rest k := by
  simp [pyLookup, h]

lemma pyPop_append_of_notin {k : Val} :
    ∀ {ws : List (Val × Val)}, (∀ q ∈ ws, q.1 ≠ k) → ∀ rest : List (Val × Val),
      pyPop (ws ++ rest) k = ((pyPop rest k).1, ws ++ (pyPop rest k).2) := by
  intro ws
  induction ws with
  | nil => intro _ rest; simp
  | cons q ws' ih =>
      intro hq rest
      obtain ⟨k1, v1⟩ := q
      have hne : k1 ≠ k := hq (k1, v1) (by simp)
      simp only [List.cons_append, pyPop, if_neg hne, List.append_eq]
      rw [ih (fun p hp => hq p (by simp [hp])) rest]

lemma valueForDbCollection_dict_list {field sub : Field}
    (h : field.item = some sub) (kvs : List (Val × Val)) :
    valueForDbCollection (.dict kvs) field "DictField" "list" false =
      (match convDictValues kvs sub with
       | .error e => .error e
       | .ok pairs => .ok (.list (interleave pairs))) := by
  rw [valueForDbCollection]
  split
  · rename_i heq
    rw [h] at heq
    cases heq
  · rename_i sub2 heq
    rw [h] at heq
    injection heq with heq2
    subst heq2
    simp

lemma valueFromDbCollection_dict_list (reg : Registry) {field sub : Field}
    (h : field.item = some sub) (xs : List Val) :
    valueFromDbCollection reg (.list xs) field "DictField" "list" =
      (match deconvDictValues reg (zipPairs xs) sub with
       | .error e => .error e
       | .ok qs => .ok (.dict (pyDictOfPairs qs))) := by
  rw [valueFromDbCollection]
  rw [h]
  have hv : dictPairsView (.list xs) "list" = .ok (zipPairs xs) := by
    simp [dictPairsView]
  dsimp only
  rw [if_pos rfl]
  split
  · rename_i e heq
    rw [hv] at heq
    cases heq
  · rename_i ps heq
    rw [hv] at heq
    injection heq with heq2
    subst heq2
    rfl

lemma convDictValues_roundtrip (reg : Registry) (sub : Field) :
    ∀ kvs : List (Val × Val),
      (∀ p ∈ kvs, ∃ w, valueForDb p.2 sub sub.kind sub.dbType false = .ok w ∧
          valueFromDb reg w sub sub.kind sub.dbType = .ok p.2) →
      ∃ ws, convDictValues kvs sub = .ok ws ∧
        ws.map Prod.fst = kvs.map Prod.fst ∧
        deconvDictValues reg ws sub = .ok kvs := by
  intro kvs
  induction kvs with
  | nil =>
      intro _
      exact ⟨[], by simp [convDictValues], by simp, by simp [deconvDictValues]⟩
  | cons p rest ih =>
      intro hrt
      obtain ⟨k, v⟩ := p
      obtain ⟨w, hw1, hw2⟩ := hrt (k, v) (by simp)
      obtain ⟨ws, hws1, hws2, hws3⟩ := ih (fun q hq => hrt q (by simp [hq]))
      refine ⟨(k, w) :: ws, ?_, ?_, ?_⟩
      · simp only [convDictValues, hw1, hws1]
      · simp [hws2]
      · simp only [deconvDictValues, hw2, hws3]

lemma convFieldPairs_roundtrip (reg : Registry) :
    ∀ fps : List (Field × Val),
      (∀ p ∈ fps, ∃ w, valueForDb p.2 p.1 p.1.kind p.1.dbType false = .ok w ∧
          valueFromDb reg w p.1 p.1.kind p.1.dbType = .ok p.2) →
      ∃ ws, convFieldPairs fps = .ok ws ∧
        List.Forall₂ (fun (p : Field × Val) (w : Val × Val) =>
          w.1 = .str p.1.column ∧
          valueFromDb reg w.2 p.1 p.1.kind p.1.dbType = .ok p.2) fps ws := by
  intro fps
  induction fps with
  | nil => intro _; exact ⟨[], by simp [convFieldPairs], .nil⟩
  | cons p rest ih =>
      intro hrt
      obtain ⟨f, v⟩ := p
      obtain ⟨w, hw1, hw2⟩ := hrt (f, v) (by simp)
      obtain ⟨ws, hws1, hws2⟩ := ih (fun q hq => hrt q (by simp [hq]))
      refine ⟨(.str f.column, w) :: ws, ?_, ?_⟩
      · simp only [convFieldPairs, hw1, hws1]
      · exact .cons ⟨rfl, hw2⟩ hws2

lemma forall2_key_mem {flds : List Field} {ws : List (Val × Val)}
    (h : List.Forall₂ (fun (f : Field) (w : Val × Val) => w.1 = .str f.column)
      flds ws) :
    ∀ b ∈ ws, ∃ f ∈ flds, b.1 = .str f.column := by
  induction h with
  | nil => simp
  | cons hfw htail ih =>
      intro b hb
      rcases List.mem_cons.mp hb with hb1 | hb2
      · subst hb1
        exact ⟨_, by simp, hfw⟩
      · obtain ⟨f2, hf2, he⟩ := ih b hb2
        exact ⟨f2, by simp [hf2], he⟩

lemma forall2_keys_pairwise {flds : List Field} {ws : List (Val × Val)}
    (hkeys : List.Forall₂ (fun (f : Field) (w : Val × Val) => w.1 = .str f.column)
      flds ws)
    (hnd : flds.Pairwise (fun a b => a.column ≠ b.column)) :
    ws.Pairwise (fun a b => a.1 ≠ b.1) := by
  induction hkeys with
  | nil => exact .nil
  | cons hfw htail ih =>
      rename_i f w flds' ws'
      rw [List.pairwise_cons] at hnd ⊢
      constructor
      · intro b hb
        obtain ⟨f2, hf2, he⟩ := forall2_key_mem htail b hb
        rw [hfw, he]
        intro hc
        injection hc with hc2
        exact hnd.1 f2 hf2 hc2
      · exact ih hnd.2

lemma valueFromDbModel_dict (reg : Registry) (field : Field)
    (field_kind : String) (kvs : List (Val × Val)) :
    valueFromDbModel reg (.dict kvs) field field_kind "dict" =
      (match resolveModel reg field (pyPop kvs (.str "_module")).1
          (pyPop (pyPop kvs (.str "_module")).2 (.str "_model")).1 with
       | .error e => .error e
       | .ok model =>
           match deconvModelFields reg model.fields
               (pyPop (pyPop kvs (.str "_module")).2 (.str "_model")).2 with
           | .error e => .error e
           | .ok data => .ok (.inst model data)) := by
  rw [valueFromDbModel]
  have hv : modelDictView (.dict kvs) "dict" = .ok kvs := by
    simp [modelDictView]
  split
  · rename_i e heq
    rw [hv] at heq
    cases heq
  · rename_i d0 heq
    rw [hv] at heq
    injection heq with heq2
    subst heq2
    rfl

lemma deconvModelFields_cons_irrelevant (reg : Registry) :
    ∀ (flds : List Field) (p : Val × Val) (d : List (Val × Val)),
      (∀ f ∈ flds, p.1 ≠ Val.str f.column) →
      deconvModelFields reg flds (p :: d) = deconvModelFields reg flds d := by
  intro flds
  induction flds with
  | nil => intro p d _; simp
  | cons f fr ih =>
      intro p d hne
      obtain ⟨k1, v1⟩ := p
      have hk : k1 ≠ Val.str f.column := hne f (by simp)
      have htail : ∀ f2 ∈ fr, (k1, v1).1 ≠ Val.str f2.column :=
        fun f2 hf2 => hne f2 (by simp [hf2])
      rcases hl : pyLookup d (Val.str f.column) with _ | w
      · rw [deconvModelFields_cons_missing reg fr
            (by rw [pyLookup_cons_ne hk]; exact hl)]
        rw [deconvModelFields_cons_missing reg fr hl]
        exact ih (k1, v1) d htail
      · rw [deconvModelFields_cons_found reg fr
            (by rw [pyLookup_cons_ne hk]; exact hl)]
        rw [deconvModelFields_cons_found reg fr hl]
        rw [ih (k1, v1) d htail]

lemma deconvModelFields_aligned (reg : Registry) :
    ∀ (fps : List (Field × Val)) (ws : List (Val × Val)),
      List.Forall₂ (fun (p : Field × Val) (w : Val × Val) =>
        w.1 = .str p.1.column ∧
        valueFromDb reg w.2 p.1 p.1.kind p.1.dbType = .ok p.2) fps ws →
      (fps.map Prod.fst).Pairwise (fun a b => a.column ≠ b.column) →
      deconvModelFields reg (fps.map Prod.fst) ws =
        .ok (fps.map (fun p => (p.1.attname, p.2))) := by
  intro fps ws h
  induction h with
  | nil => intro _; simp
  | cons hpw htail ih =>
      rename_i p w fr wr
      intro hnd
      obtain ⟨f, v⟩ := p
      obtain ⟨k, w2⟩ := w
      obtain ⟨hk, hdec⟩ := hpw
      simp only at hk hdec
      subst hk
      simp only [List.map_cons, List.pairwise_cons] at hnd ⊢
      have hlook : pyLookup ((Val.str f.column, w2) :: wr) (Val.str f.column) =
          some w2 := by
        simp [pyLookup]
      rw [deconvModelFields_cons_found reg (fr.map Prod.fst) hlook, hdec]
      rw [deconvModelFields_cons_irrelevant reg (fr.map Prod.fst)
          (Val.str f.column, w2) wr ?_]
      · rw [ih hnd.2]
      · intro f2 hf2
        simp only
        intro hc
        injection hc with hc2
        exact hnd.1 f2 hf2 hc2

/-! ## Sample objects used to instantiate the theorems -/

/-- A plain nullable integer field stored under column `icol`. -/
def intField : Field :=
  .mk "IntegerField" "integer" "icol" "iatt" "iname" true Option.none Option.none

/-- A DictField whose values are typed by `intField`. -/
def dictIntField : Field :=
  .mk "DictField" "list" "dcol" "datt" "dname" true (some intField) Option.none

/-- A model with the single field `intField`. -/
def modelB : Model := .mk "app.models" "B" [intField]

/-- An EmbeddedModelField statically declared to embed a different
model (class `A`) than the one the samples store (class `B`). -/
def embField : Field :=
  .mk "EmbeddedModelField" "dict" "ecol" "eatt" "ename" true Option.none
    (some (Model.mk "app.models" "A" []))

/-- A registry (stand-in for `python_2_unicode_compatible` imports /
`getattr(import_module(module), classname)`) knowing only `modelB`. -/
def sampleReg : Registry :=
  fun mo cl => if mo = "app.models" ∧ cl = "B" then some modelB else Option.none

/-- A non-nullable integer field. -/
def reqField : Field :=
  .mk "IntegerField" "integer" "rcol" "ratt" "rname" false Option.none Option.none

/-- A processed constraint on column `col1` of table `t`. -/
def sampleC1 : Constraint := ⟨some "t", "col1", "string", Option.none⟩

/-- A processed constraint on column `col2` of table `t`. -/
def sampleC2 : Constraint := ⟨some "t", "col2", "string", Option.none⟩

/-- The identity value conversion. -/
def convId : Val → Field → Except String Val := fun v _ => .ok v

/-- A value conversion that maps everything to None. -/
def convNone : Val → Field → Except String Val := fun _ _ => .ok .none

/-- A default-value assignment giving every field the default 0. -/
def default0 : Field → Val := fun _ => .int 0

/-! ## The claims -/

/-- C1: encoding a dict whose entries round-trip under the item field,
for a DictField against `list` storage, yields the flat key / value
interleaved list in insertion order (keys unchanged), and decoding that
flat list restores the original dict exactly. -/
theorem dictField_list_storage_roundtrip (reg : Registry)
    (field sub : Field) (kvs : List (Val × Val))
    (hitem : field.item = some sub)
    (hnodup : kvs.Pairwise (fun a b => a.1 ≠ b.1))
    (hrt : ∀ p ∈ kvs, ∃ w, valueForDb p.2 sub sub.kind sub.dbType false = .ok w ∧
        valueFromDb reg w sub sub.kind sub.dbType = .ok p.2) :
    ∃ ws : List (Val × Val),
      ws.map Prod.fst = kvs.map Prod.fst ∧
      valueForDb (.dict kvs) field "DictField" "list" false =
        .ok (.list (interleave ws)) ∧
      valueFromDb reg (.list (interleave ws)) field "DictField" "list" =
        .ok (.dict kvs) := by
  obtain ⟨ws, hconv, hkeys, hdeconv⟩ := convDictValues_roundtrip reg sub kvs hrt
  refine ⟨ws, hkeys, ?_, ?_⟩
  · have h1 : valueForDb (.dict kvs) field "DictField" "list" false =
        valueForDbCollection (.dict kvs) field "DictField" "list" false := by
      rw [valueForDb]
      all_goals simp [pyForce]
    rw [h1, valueForDbCollection_dict_list hitem, hconv]
  · have h2 : valueFromDb reg (.list (interleave ws)) field "DictField" "list" =
        valueFromDbCollection reg (.list (interleave ws)) field "DictField" "list" := by
      rw [valueFromDb]
      all_goals simp
    rw [h2, valueFromDbCollection_dict_list reg hitem, zipPairs_interleave, hdeconv]
    simp [pyDictOfPairs_nodup hnodup]

theorem dictField_list_storage_roundtrip_witness :
    ∃ ws : List (Val × Val),
      ws.map Prod.fst = [Val.str "a", Val.str "b"] ∧
      valueForDb (.dict [(.str "a", .int 1), (.str "b", .int 2)]) dictIntField
          "DictField" "list" false = .ok (.list (interleave ws)) ∧
      valueFromDb sampleReg (.list (interleave ws)) dictIntField
          "DictField" "list" =
        .ok (.dict [(.str "a", .int 1), (.str "b", .int 2)]) := by
  refine dictField_list_storage_roundtrip sampleReg dictIntField intField
    [(.str "a", .int 1), (.str "b", .int 2)] rfl (by decide) ?_
  intro p hp
  simp only [List.mem_cons, List.not_mem_nil, or_false] at hp
  rcases hp with h | h <;> subst h
  · exact ⟨Val.int 1,
      by show valueForDb (Val.int 1) intField "IntegerField" "integer" false =
           .ok (Val.int 1); simp [valueForDb, pyForce],
      by show valueFromDb sampleReg (Val.int 1) intField "IntegerField" "integer" =
           .ok (Val.int 1); simp [valueFromDb]⟩
  · exact ⟨Val.int 2,
      by show valueForDb (Val.int 2) intField "IntegerField" "integer" false =
           .ok (Val.int 2); simp [valueForDb, pyForce],
      by show valueFromDb sampleReg (Val.int 2) intField "IntegerField" "integer" =
           .ok (Val.int 2); simp [valueFromDb]⟩

/-- C2: encoding an embedded instance with type-info persistence appends
the synthetic `_module` / `_model` entries carrying the module and class
of the instance, and decoding resolves the target model from those
markers through the registry (not from the static field declaration), so
the value round-trips even through a field declared with a different
embedded model. -/
theorem embedded_typeinfo_roundtrip (reg : Registry) (field : Field) (B : Model)
    (fieldValues : List (Field × Val))
    (hflds : fieldValues.map Prod.fst = B.fields)
    (hreg : reg B.module B.name = some B)
    (hnd : B.fields.Pairwise (fun a b => a.column ≠ b.column))
    (hnm : ∀ f ∈ B.fields, f.column ≠ "_module" ∧ f.column ≠ "_model")
    (hrt : ∀ p ∈ fieldValues, ∃ w,
        valueForDb p.2 p.1 p.1.kind p.1.dbType false = .ok w ∧
        valueFromDb reg w p.1 p.1.kind p.1.dbType = .ok p.2) :
    ∃ ws : List (Val × Val),
      valueForDb (.triple B.module B.name fieldValues true) field
          "EmbeddedModelField" "dict" false =
        .ok (.dict (ws ++ [(.str "_module", .str B.module),
                           (.str "_model", .str B.name)])) ∧
      valueFromDb reg
          (.dict (ws ++ [(.str "_module", .str B.module),
                         (.str "_model", .str B.name)]))
          field "EmbeddedModelField" "dict" =
        .ok (.inst B (fieldValues.map (fun p => (p.1.attname, p.2)))) := by
  obtain ⟨ws, hconv, hforall⟩ := convFieldPairs_roundtrip reg fieldValues hrt
  have hkeys : List.Forall₂
      (fun (f : Field) (w : Val × Val) => w.1 = .str f.column)
      B.fields ws := by
    rw [← hflds]
    rw [List.forall₂_map_left_iff]
    exact hforall.imp (fun {a b} h => h.1)
  have hwspw : ws.Pairwise (fun a b => a.1 ≠ b.1) := forall2_keys_pairwise hkeys hnd
  have hwsmem : ∀ b ∈ ws, ∃ f ∈ B.fields, b.1 = .str f.column :=
    forall2_key_mem hkeys
  have hnotin1 : ∀ q ∈ ws, q.1 ≠ Val.str "_module" := by
    intro q hq hc
    obtain ⟨f, hf, he⟩ := hwsmem q hq
    rw [he] at hc
    injection hc with hc2
    exact (hnm f hf).1 hc2
  have hnotin2 : ∀ q ∈ ws, q.1 ≠ Val.str "_model" := by
    intro q hq hc
    obtain ⟨f, hf, he⟩ := hwsmem q hq
    rw [he] at hc
    injection hc with hc2
    exact (hnm f hf).2 hc2
  have hpwfull : (ws ++ [(Val.str "_module", Val.str B.module),
      (Val.str "_model", Val.str B.name)]).Pairwise (fun a b => a.1 ≠ b.1) := by
    rw [List.pairwise_append]
    refine ⟨hwspw, by simp, ?_⟩
    intro a ha b hb
    simp only [List.mem_cons, List.mem_singleton, List.not_mem_nil] at hb
    rcases hb with hb | hb | hfalse
    · subst hb
      exact hnotin1 a ha
    · subst hb
      exact hnotin2 a ha
    · exact absurd hfalse (by simp)
  refine ⟨ws, ?_, ?_⟩
  · have h1 : valueForDb (.triple B.module B.name fieldValues true) field
        "EmbeddedModelField" "dict" false =
        valueForDbModel (.triple B.module B.name fieldValues true) field
          "EmbeddedModelField" "dict" false := by
      rw [valueForDb]
      all_goals simp [pyForce]
    rw [h1]
    simp only [valueForDbModel, hconv]
    simp [pyDictOfPairs_nodup hpwfull]
  · have h2 : valueFromDb reg
        (.dict (ws ++ [(.str "_module", .str B.module),
                       (.str "_model", .str B.name)]))
        field "EmbeddedModelField" "dict" =
        valueFromDbModel reg
          (.dict (ws ++ [(.str "_module", .str B.module),
                         (.str "_model", .str B.name)]))
          field "EmbeddedModelField" "dict" := by
      rw [valueFromDb]
      all_goals simp
    rw [h2, valueFromDbModel_dict]
    rw [pyPop_append_of_notin hnotin1]
    have hm1 : pyPop [(Val.str "_module", Val.str B.module),
        (Val.str "_model", Val.str B.name)] (Val.str "_module") =
        (some (Val.str B.module), [(Val.str "_model", Val.str B.name)]) := by
      simp [pyPop]
    rw [hm1]
    rw [pyPop_append_of_notin hnotin2]
    have hm2 : pyPop [(Val.str "_model", Val.str B.name)] (Val.str "_model") =
        (some (Val.str B.name), []) := by
      simp [pyPop]
    rw [hm2]
    simp only [resolveModel, hreg, List.append_nil]
    have hfin := deconvModelFields_aligned reg fieldValues ws hforall
      (by rw [hflds]; exact hnd)
    rw [hflds] at hfin
    rw [hfin]

theorem embedded_typeinfo_roundtrip_witness :
    ∃ ws : List (Val × Val),
      valueForDb (.triple "app.models" "B" [(intField, Val.int 7)] true) embField
          "EmbeddedModelField" "dict" false =
        .ok (.dict (ws ++ [(.str "_module", .str "app.models"),
                           (.str "_model", .str "B")])) ∧
      valueFromDb sampleReg
          (.dict (ws ++ [(.str "_module", .str "app.models"),
                         (.str "_model", .str "B")]))
          embField "EmbeddedModelField" "dict" =
        .ok (.inst modelB [("iatt", Val.int 7)]) := by
  refine embedded_typeinfo_roundtrip sampleReg embField modelB
    [(intField, Val.int 7)] rfl (by decide) (by decide) (by decide) ?_
  intro p hp
  simp only [List.mem_singleton] at hp
  subst hp
  exact ⟨Val.int 7,
    by show valueForDb (Val.int 7) intField "IntegerField" "integer" false =
         .ok (Val.int 7); simp [valueForDb, pyForce],
    by show valueFromDb sampleReg (Val.int 7) intField "IntegerField" "integer" =
         .ok (Val.int 7); simp [valueFromDb]⟩

/-- C3: with negation active, a node whose connector is not OR and which
keeps more than one child after pruning is rejected with a database
error; a negated OR node with two leaf children succeeds and records
both leaves with the negated flag set. -/
theorem negated_tree_shape :
    (∀ (table : String) (st : Bool) (conn : String) (isNeg : Bool)
       (children : List WChild),
      (if isNeg then !st else st) = true → conn ≠ "OR" →
      (getChildren children).length > 1 →
      addFilters table st (.node conn isNeg children) =
        .error "DatabaseError: negating a whole filter subgroup needs OR") ∧
    (∀ (table : String) (c1 c2 : Constraint) (l1 l2 : String) (a1 a2 v1 v2 : Val)
       (col1 col2 lt1 lt2 : String) (w1 w2 : Val) (f1 f2 : Option Field)
       (dt1 dt2 : String),
      ¬(l1 = "isnull" ∧ c1.field = Option.none) →
      ¬(l2 = "isnull" ∧ c2.field = Option.none) →
      decodeChild table c1 l1 a1 v1 = .ok (col1, lt1, w1, f1, dt1) →
      decodeChild table c2 l2 a2 v2 = .ok (col2, lt2, w2, f2, dt2) →
      addFilters table false
          (.node "OR" true [.leaf c1 l1 a1 v1, .leaf c2 l2 a2 v2]) =
        .ok ([⟨col1, lt1, true, w1, f1, dt1⟩, ⟨col2, lt2, true, w2, f2, dt2⟩],
             false)) := by
  constructor
  · intro table st conn isNeg children hneg hconn hlen
    simp [addFilters, hneg, hconn, hlen]
  · intro table c1 c2 l1 l2 a1 a2 v1 v2 col1 col2 lt1 lt2 w1 w2 f1 f2 dt1 dt2
      hk1 hk2 hd1 hd2
    simp [addFilters, addFiltersLoop, getChildren_cons_leaf_keep hk1,
          getChildren_cons_leaf_keep hk2, getChildren_nil, hd1, hd2]

theorem negated_tree_shape_witness :
    addFilters "t" false
        (.node "AND" true [.leaf sampleC1 "exact" .none (.str "x"),
                           .leaf sampleC2 "exact" .none (.str "y")]) =
      .error "DatabaseError: negating a whole filter subgroup needs OR" ∧
    addFilters "t" false
        (.node "OR" true [.leaf sampleC1 "exact" .none (.str "x"),
                          .leaf sampleC2 "exact" .none (.str "y")]) =
      .ok ([⟨"col1", "exact", true, .str "x", Option.none, "string"⟩,
            ⟨"col2", "exact", true, .str "y", Option.none, "string"⟩], false) := by
  constructor
  · exact negated_tree_shape.1 "t" false "AND" true
      [.leaf sampleC1 "exact" .none (.str "x"),
       .leaf sampleC2 "exact" .none (.str "y")]
      rfl (by decide) (by decide)
  · exact negated_tree_shape.2 "t" sampleC1 sampleC2 "exact" "exact"
      .none .none (.str "x") (.str "y") "col1" "col2" "exact" "exact"
      (.str "x") (.str "y") Option.none Option.none "string" "string"
      (by decide) (by decide) rfl rfl

/-- C4: a leaf under two levels of negation is translated exactly like
the unnegated leaf (the negation flag composes by XOR and double
negation cancels), and on exit from any subtree whose translation
succeeds the carried negation state equals its pre-entry value. -/
theorem double_negation_cancels :
    (∀ (table : String) (st : Bool) (c : Constraint) (l : String) (a v : Val),
      addFilters table st (.node "AND" true [.node "AND" true [.leaf c l a v]]) =
        addFilters table st (.node "AND" false [.leaf c l a v])) ∧
    (∀ (table : String) (st : Bool) (child : WChild)
       (calls : List FilterCall) (st2 : Bool),
      addFilters table st child = .ok (calls, st2) → st2 = st) := by
  constructor
  · intro table st c l a v
    by_cases hp : (l = "isnull" ∧ c.field = Option.none)
    · cases st <;>
        simp [addFilters, addFiltersLoop, getChildren_cons_leaf_drop hp,
              getChildren_cons_node, getChildren_nil]
    · cases st <;>
        simp [addFilters, addFiltersLoop, getChildren_cons_leaf_keep hp,
              getChildren_cons_node, getChildren_nil] <;>
      rcases decodeChild table c l a v with e | ⟨col, lt2, w, fld, dbt⟩ <;> simp
  · intro table st child calls st2 h
    exact (addFilters_restores_aux table (sizeOf child)).1 child
      (Nat.le_refl _) st calls st2 h

theorem double_negation_cancels_witness :
    (addFilters "t" false
        (.node "AND" true [.node "AND" true
          [.leaf sampleC1 "exact" .none (.str "x")]]) =
      addFilters "t" false
        (.node "AND" false [.leaf sampleC1 "exact" .none (.str "x")])) ∧
    false = false := by
  refine ⟨double_negation_cancels.1 "t" false sampleC1 "exact" .none (.str "x"), ?_⟩
  have hEq : addFilters "t" false (WChild.node "AND" false []) = .ok ([], false) := by
    rw [addFilters_node_eq, getChildren_nil, addFiltersLoop_nil_eq]
    simp
  exact double_negation_cancels.2 "t" false (WChild.node "AND" false []) [] false hEq

/-- C5: on an entity storing None for the tested column, the in-memory
match returns true for lt / lte against a date, datetime or time
comparison value, and returns false (rather than raising) for
startswith, contains, endswith, iexact and their case-insensitive
forms. -/
theorem null_entity_conventions :
    (∀ (table : String) (entity : Entity) (c : Constraint) (lt : String)
       (a v : Val) (d : Nat),
      c.tableAlias = some table →
      sLookup entity c.column = some .none →
      (lt = "lt" ∨ lt = "lte") →
      (v = .date d ∨ v = .datetime d ∨ v = .time d) →
      matchesLeaf table entity c lt a v = .ok true) ∧
    (∀ (table : String) (entity : Entity) (c : Constraint) (lt : String)
       (a : Val) (s : String),
      c.tableAlias = some table →
      sLookup entity c.column = some .none →
      (lt = "startswith" ∨ lt = "contains" ∨ lt = "endswith" ∨ lt = "iexact" ∨
       lt = "istartswith" ∨ lt = "icontains" ∨ lt = "iendswith") →
      matchesLeaf table entity c lt a (.str s) = .ok false) := by
  constructor
  · intro table entity c lt a v d halias hcol hop hv
    rcases hop with h | h <;> subst h <;>
      rcases hv with h | h | h <;> subst h <;>
        simp [matchesLeaf, halias, entityGet, hcol]
  · intro table entity c lt a s halias hcol hop
    rcases hop with h | h | h | h | h | h | h <;> subst h <;>
      simp [matchesLeaf, halias, entityGet, hcol]

theorem null_entity_conventions_witness :
    matchesLeaf "t" [("col1", Val.none)] sampleC1 "lt" Val.none
        (Val.datetime 5) = .ok true ∧
    matchesLeaf "t" [("col1", Val.none)] sampleC1 "startswith" Val.none
        (Val.str "x") = .ok false := by
  constructor
  · exact null_entity_conventions.1 "t" [("col1", Val.none)] sampleC1 "lt"
      Val.none (Val.datetime 5) 5 rfl rfl (Or.inl rfl) (Or.inr (Or.inl rfl))
  · exact null_entity_conventions.2 "t" [("col1", Val.none)] sampleC1
      "startswith" Val.none "x" rfl rfl (Or.inl rfl)

/-- C6: building a result row, a field whose column is absent from the
entity receives its default, a present value is decoded through the
back-end and query conversions, and a non-nullable field whose decoded
value is None makes the whole row fail with an IntegrityError naming
the field. -/
theorem make_result_field_semantics :
    (∀ (convDb convQuery : Val → Field → Except String Val)
       (getDefault : Field → Val) (entity : Entity) (field : Field)
       (rest : List Field) (vs : List Val),
      sLookup entity field.column = Option.none →
      ¬(getDefault field = .none ∧ ¬field.null = true) →
      makeResult convDb convQuery getDefault entity rest = .ok vs →
      makeResult convDb convQuery getDefault entity (field :: rest) =
        .ok (getDefault field :: vs)) ∧
    (∀ (convDb convQuery : Val → Field → Except String Val)
       (getDefault : Field → Val) (entity : Entity) (field : Field)
       (rest : List Field) (v w u : Val) (vs : List Val),
      sLookup entity field.column = some v →
      convDb v field = .ok w →
      convQuery w field = .ok u →
      ¬(u = .none ∧ ¬field.null = true) →
      makeResult convDb convQuery getDefault entity rest = .ok vs →
      makeResult convDb convQuery getDefault entity (field :: rest) =
        .ok (u :: vs)) ∧
    (∀ (convDb convQuery : Val → Field → Except String Val)
       (getDefault : Field → Val) (entity : Entity) (field : Field)
       (rest : List Field) (v w : Val),
      sLookup entity field.column = some v →
      convDb v field = .ok w →
      convQuery w field = .ok .none →
      field.null = false →
      makeResult convDb convQuery getDefault entity (field :: rest) =
        .error ("IntegrityError: non-nullable field " ++ field.name ++
                " cannot be None")) := by
  refine ⟨?_, ?_, ?_⟩
  · intro convDb convQuery getDefault entity field rest vs hcol hdef hrest
    simp [makeResult, hcol, hdef, hrest]
    tauto
  · intro convDb convQuery getDefault entity field rest v w u vs hcol hdb hq hnn hrest
    simp [makeResult, hcol, hdb, hq, hnn, hrest]
    tauto
  · intro convDb convQuery getDefault entity field rest v w hcol hdb hq hnull
    simp [makeResult, hcol, hdb, hq, hnull]

theorem make_result_field_semantics_witness :
    makeResult convId convId default0 [] [intField] = .ok [Val.int 0] ∧
    makeResult convId convId default0 [("icol", Val.int 5)] [intField] =
      .ok [Val.int 5] ∧
    makeResult convId convNone default0 [("rcol", Val.int 5)] [reqField] =
      .error "IntegrityError: non-nullable field rname cannot be None" := by
  refine ⟨?_, ?_, ?_⟩
  · exact make_result_field_semantics.1 convId convId default0 [] intField []
      [] rfl (by decide) rfl
  · exact make_result_field_semantics.2.1 convId convId default0
      [("icol", Val.int 5)] intField [] (Val.int 5) (Val.int 5) (Val.int 5) []
      rfl rfl rfl (by decide) rfl
  · exact make_result_field_semantics.2.2 convId convNone default0
      [("rcol", Val.int 5)] reqField [] (Val.int 5) (Val.int 5)
      rfl rfl rfl rfl

/-- C7: an insert assigning None to a non-nullable field fails with an
IntegrityError naming the field, and the trace of encode calls shows no
conversion was invoked for that field (only the fields before it were
encoded). -/
theorem insert_null_rejected_before_encode
    (conv : Val → Field → Except String Val)
    (preV postV : List (Option Field × Val)) (preC postC : List String)
    (field : Field) (col : String) (d : List (String × Val))
    (hlen : preV.length = preC.length)
    (hnn : field.null = false)
    (hpre : (insertLoop conv (preV.zip preC)).1 = .ok d) :
    insertExecuteSql conv (preV ++ (some field, Val.none) :: postV)
        (preC ++ col :: postC) =
      (.error ("IntegrityError: cannot set non-nullable field " ++
               field.name ++ " to None"),
       (insertLoop conv (preV.zip preC)).2) := by
  rw [insertExecuteSql, List.zip_append hlen]
  have hy : insertLoop conv (((some field, Val.none), col) :: postV.zip postC) =
      (.error ("IntegrityError: cannot set non-nullable field " ++
               field.name ++ " to None"), []) := by
    simp [insertLoop, hnn]
  rw [List.zip_cons_cons]
  exact insertLoop_append_error conv _ _ _ hy d hpre

theorem insert_null_rejected_before_encode_witness :
    insertExecuteSql convId
        [(some intField, Val.int 1), (some reqField, Val.none)]
        ["icol", "rcol"] =
      (.error "IntegrityError: cannot set non-nullable field rname to None",
       [(intField, Val.int 1)]) := by
  exact insert_null_rejected_before_encode convId
    [(some intField, Val.int 1)] [] ["icol"] [] reqField "rcol"
    [("icol", Val.int 1)] rfl rfl rfl

/-- C8: a count with the exists-only flag passes the window cap of one
record to the driver, regardless of the high mark of the orchestrating
query. -/
theorem count_exists_limit_one (driverCount : Option Nat → Nat)
    (marks : QueryMarks) :
    getCount driverCount marks true = driverCount (some 1) := by
  rfl

/-- C9: preparing an embedded-model value for a lookup returns the value
unchanged: no subfield encoding, no column renaming, no synthetic type
markers. -/
theorem embedded_lookup_passthrough (value : Val) (field : Field)
    (field_kind db_type : String) :
    valueForDbModel value field field_kind db_type true = .ok value := by
  cases value <;> simp [valueForDbModel]

/-- C10: decoding a stored embedded value pops the synthetic `_module` /
`_model` entries before any subfield decoding, so the subfields are
decoded against the marker-free mapping only; every attribute of the
reconstructed instance stems from a field whose column is present, and
fields whose columns are absent are skipped without error. -/
theorem markers_stripped_and_missing_columns_skipped (reg : Registry) :
    (∀ (field : Field) (field_kind : String) (kvs d1 d2 : List (Val × Val))
       (mo cl : String) (B : Model),
      pyPop kvs (.str "_module") = (some (.str mo), d1) →
      pyPop d1 (.str "_model") = (some (.str cl), d2) →
      reg mo cl = some B →
      valueFromDbModel reg (.dict kvs) field field_kind "dict" =
        (match deconvModelFields reg B.fields d2 with
         | .error e => .error e
         | .ok data => .ok (.inst B data))) ∧
    (∀ (flds : List Field) (d : List (Val × Val)) (data : List (String × Val)),
      deconvModelFields reg flds d = .ok data →
      ∀ p ∈ data, ∃ f ∈ flds, p.1 = f.attname ∧
        (pyLookup d (.str f.column)).isSome) ∧
    (∀ (flds : List Field) (d : List (Val × Val)),
      (∀ f ∈ flds, ∀ w, pyLookup d (.str f.column) = some w →
        ∃ v, valueFromDb reg w f f.kind f.dbType = .ok v) →
      ∃ data, deconvModelFields reg flds d = .ok data) := by
  refine ⟨?_, ?_, ?_⟩
  · intro field field_kind kvs d1 d2 mo cl B hp1 hp2 hreg
    rw [valueFromDbModel_dict, hp1]
    simp only
    rw [hp2]
    simp only [resolveModel, hreg]
  · intro flds
    induction flds with
    | nil =>
        intro d data h
        simp at h
        subst h
        simp
    | cons f fr ih =>
        intro d data h
        rcases hl : pyLookup d (Val.str f.column) with _ | w
        · rw [deconvModelFields_cons_missing reg fr hl] at h
          intro p hp
          obtain ⟨f2, hf2, he, hs⟩ := ih d data h p hp
          exact ⟨f2, by simp [hf2], he, hs⟩
        · rw [deconvModelFields_cons_found reg fr hl] at h
          rcases hd : valueFromDb reg w f f.kind f.dbType with e | v
          · rw [hd] at h
            cases h
          · rw [hd] at h
            rcases hr : deconvModelFields reg fr d with e | ds
            · rw [hr] at h
              cases h
            · rw [hr] at h
              injection h with h2
              subst h2
              intro p hp
              rcases List.mem_cons.mp hp with hp1 | hp2
              · subst hp1
                exact ⟨f, by simp, rfl, by simp [hl]⟩
              · obtain ⟨f2, hf2, he, hs⟩ := ih d ds hr p hp2
                exact ⟨f2, by simp [hf2], he, hs⟩
  · intro flds
    induction flds with
    | nil =>
        intro d _
        exact ⟨[], by simp⟩
    | cons f fr ih =>
        intro d hok
        rcases hl : pyLookup d (Val.str f.column) with _ | w
        · obtain ⟨ds, hds⟩ := ih d (fun f2 hf2 => hok f2 (by simp [hf2]))
          exact ⟨ds, by rw [deconvModelFields_cons_missing reg fr hl]; exact hds⟩
        · obtain ⟨v, hv⟩ := hok f (by simp) w hl
          obtain ⟨ds, hds⟩ := ih d (fun f2 hf2 => hok f2 (by simp [hf2]))
          refine ⟨(f.attname, v) :: ds, ?_⟩
          rw [deconvModelFields_cons_found reg fr hl, hv, hds]

theorem markers_stripped_and_missing_columns_skipped_witness :
    (valueFromDbModel sampleReg
        (.dict [(.str "_module", .str "app.models"), (.str "_model", .str "B")])
        embField "EmbeddedModelField" "dict" =
      (match deconvModelFields sampleReg modelB.fields [] with
       | .error e => .error e
       | .ok data => .ok (.inst modelB data))) ∧
    (∀ p ∈ [("iatt", Val.int 3)], ∃ f ∈ [intField], p.1 = f.attname ∧
        (pyLookup [(Val.str "icol", Val.int 3)] (.str f.column)).isSome) ∧
    (∃ data, deconvModelFields sampleReg [intField]
        [(Val.str "icol", Val.int 3)] = .ok data) := by
  refine ⟨?_, ?_, ?_⟩
  · exact (markers_stripped_and_missing_columns_skipped sampleReg).1
      embField "EmbeddedModelField"
      [(.str "_module", .str "app.models"), (.str "_model", .str "B")]
      [(.str "_model", .str "B")] [] "app.models" "B" modelB
      (by decide) (by decide) (by decide)
  · have hd : deconvModelFields sampleReg [intField]
        [(Val.str "icol", Val.int 3)] = .ok [("iatt", Val.int 3)] := by
      rw [deconvModelFields_cons_found sampleReg []
        (show pyLookup [(Val.str "icol", Val.int 3)] (.str intField.column) =
          some (Val.int 3) from rfl)]
      have hv : valueFromDb sampleReg (Val.int 3) intField intField.kind
          intField.dbType = .ok (Val.int 3) := by
        show valueFromDb sampleReg (Val.int 3) intField "IntegerField"
          "integer" = .ok (Val.int 3)
        simp [valueFromDb]
      rw [hv, deconvModelFields_nil]
      rfl
    exact (markers_stripped_and_missing_columns_skipped sampleReg).2.1
      [intField] [(Val.str "icol", Val.int 3)] [("iatt", Val.int 3)] hd
  · refine (markers_stripped_and_missing_columns_skipped sampleReg).2.2
      [intField] [(Val.str "icol", Val.int 3)] ?_
    intro f hf w hw
    simp only [List.mem_singleton] at hf
    subst hf
    have h2 : pyLookup [(Val.str "icol", Val.int 3)] (Val.str intField.column) =
        some (Val.int 3) := rfl
    rw [h2] at hw
    injection hw with h3
    subst h3
    refine ⟨Val.int 3, ?_⟩
    show valueFromDb sampleReg (Val.int 3) intField "IntegerField" "integer" =
      .ok (Val.int 3)
    simp [valueFromDb]

end Djangotoolbox
